import Mathlib

/-!
Verification of the llm-council backend orchestration engine.

Free text is modelled as `List Char` (Python `str`); model identifiers are
Lean `String`s.  Python dicts are modelled as association lists with
insertion-order semantics.  Monetary amounts are exact rationals.
-/

namespace Council

/-- Abbreviation: the character list of a string literal. -/
def str (s : String) : List Char := s.data

/-- `startsWithL pat l` holds when `pat` is an initial segment of `l`
(Python `str.startswith`). -/
def startsWithL : List Char → List Char → Bool
  | [], _ => true
  | _ :: _, [] => false
  | p :: ps, c :: cs => p = c && startsWithL ps cs

/-- Index of the first occurrence of (non-empty) `pat` inside `l`
(Python `str.find` when it succeeds); `none` when `pat` never occurs. -/
def firstIdx? (pat : List Char) : List Char → Option Nat
  | [] => if startsWithL pat [] then some 0 else none
  | c :: cs =>
    if startsWithL pat (c :: cs) then some 0
    else (firstIdx? pat cs).map (· + 1)

/-- Python `pat in l` for strings. -/
def containsSub (pat l : List Char) : Bool := (firstIdx? pat l).isSome

/-- One step of Python `str.split(sep)` (non-empty `sep`), fuelled. -/
def splitOnSepFuel (sep : List Char) : Nat → List Char → List (List Char)
  | 0, l => [l]
  | Nat.succ fuel, l =>
    match firstIdx? sep l with
    | none => [l]
    | some i => l.take i :: splitOnSepFuel sep fuel (l.drop (i + sep.length))

/-- Python `str.split(sep)` for a non-empty separator. -/
def splitOnSep (sep l : List Char) : List (List Char) :=
  splitOnSepFuel sep (l.length + 1) l

/-- ASCII uppercase test, the `[A-Z]` character class. -/
def isUpperAZ (c : Char) : Bool := 'A' ≤ c && c ≤ 'Z'

/-- ASCII digit test, the `\d` character class. -/
def isDigitC (c : Char) : Bool := '0' ≤ c && c ≤ '9'

/-- ASCII whitespace, the `\s` character class. -/
def isSpaceC (c : Char) : Bool :=
  c = ' ' || c = '\t' || c = '\n' || c = '\x0d' || c = '\x0b' || c = '\x0c'

/-- Attempt to match the regex `Response [A-Z]` at the head of `l`,
returning the matched text. -/
def matchPlainAt (l : List Char) : Option (List Char) :=
  if startsWithL (str "Response ") l then
    match l.drop 9 with
    | c :: _ => if isUpperAZ c then some (str "Response " ++ [c]) else none
    | [] => none
  else none

/-- Attempt to match the regex `\d+\.\s*Response [A-Z]` at the head of `l`,
returning the matched text.  (The greedy `\d+` and `\s*` are deterministic
here because neither class matches `.` or `R`.) -/
def matchNumberedAt (l : List Char) : Option (List Char) :=
  let ds := l.takeWhile isDigitC
  if ds.isEmpty then none
  else
    match l.drop ds.length with
    | '.' :: r2 =>
      let ws := r2.takeWhile isSpaceC
      match matchPlainAt (r2.drop ws.length) with
      | some p => some (ds ++ '.' :: ws ++ p)
      | none => none
    | _ => none

/-- Fuelled left-to-right non-overlapping scan, the semantics of
`re.findall` for the deterministic patterns used here. -/
def findallFuel (m : List Char → Option (List Char)) :
    Nat → List Char → List (List Char)
  | 0, _ => []
  | Nat.succ _, [] => []
  | Nat.succ fuel, c :: cs =>
    match m (c :: cs) with
    | some w => w :: findallFuel m fuel ((c :: cs).drop w.length)
    | none => findallFuel m fuel cs

/-- `re.findall(r'Response [A-Z]', l)`. -/
def findallPlain (l : List Char) : List (List Char) :=
  findallFuel matchPlainAt l.length l

/-- `re.findall(r'\d+\.\s*Response [A-Z]', l)`. -/
def findallNumbered (l : List Char) : List (List Char) :=
  findallFuel matchNumberedAt l.length l

/-- `re.search(r'Response [A-Z]', m).group()` as performed on each
numbered match by the parser. -/
def extractLabel (m : List Char) : List Char := (findallPlain m).headD []

/-- The literal ranking marker. -/
def finalRankingMarker : List Char := str "FINAL RANKING:"

/-- `parse_ranking_from_text` (council.py): extract the ranked labels from a
model's free-text ranking response. -/
def parse_ranking_from_text (ranking_text : List Char) : List (List Char) :=
  if containsSub finalRankingMarker ranking_text then
    let parts := splitOnSep finalRankingMarker ranking_text
    if 2 ≤ parts.length then
      let ranking_section := parts.getD 1 []
      let numbered_matches := findallNumbered ranking_section
      if ¬ numbered_matches.isEmpty then
        numbered_matches.map extractLabel
      else
        findallPlain ranking_section
    else
      findallPlain ranking_text
  else
    findallPlain ranking_text

/-- The text up to (excluding) the first occurrence of `sep`, or all of `l`
when `sep` does not occur. -/
def takeUntilSub (sep l : List Char) : List Char :=
  match firstIdx? sep l with
  | some i => l.take i
  | none => l

/-- The substring after the first occurrence of the ranking marker (the
wording of the specification); `l` itself when the marker is absent. -/
def afterFirstMarker (l : List Char) : List Char :=
  match firstIdx? finalRankingMarker l with
  | some i => l.drop (i + finalRankingMarker.length)
  | none => l

/-- The text the parser actually examines when the marker occurs: the
substring strictly between the first occurrence of the marker and its next
occurrence (to the end of the text when the marker occurs only once). -/
def markerSection (l : List Char) : List Char :=
  takeUntilSub finalRankingMarker (afterFirstMarker l)

/-- An input whose marker occurs twice.  The claim's reading ("the substring
after the marker's first occurrence") predicts the numbered ranking found
after the first marker, i.e. `["Response A"]`; the code splits on the marker
and examines only the text between the first and second occurrences, finding
nothing. -/
def c1DoubleMarkerInput : List Char :=
  str "FINAL RANKING: x FINAL RANKING: 1. Response A"

/-! ### Python dict and helper modelling -/

/-- Lookup in an association-list model of a Python dict. -/
def dictGet? {α β : Type _} [DecidableEq α] : List (α × β) → α → Option β
  | [], _ => none
  | (k, v) :: rest, key => if k = key then some v else dictGet? rest key

/-- Python dict assignment `d[k] = v`: an existing key keeps its position
and takes the new value, a new key is appended. -/
def dictInsert {α β : Type _} [DecidableEq α] : List (α × β) → α → β → List (α × β)
  | [], k, v => [(k, v)]
  | (k', v') :: rest, k, v =>
    if k' = k then (k', v) :: rest else (k', v') :: dictInsert rest k v

/-- Python `enumerate(xs, start=n)`. -/
def enumFrom {α : Type _} : Nat → List α → List (Nat × α)
  | _, [] => []
  | n, x :: xs => (n, x) :: enumFrom (n + 1) xs

/-- Python `sep.join(xs)`. -/
def joinSep (sep : List Char) : List (List Char) → List Char
  | [] => []
  | [x] => x
  | x :: xs => x ++ sep ++ joinSep sep xs

/-- `defaultdict(list)` update `d[k].append(p)`: an existing key has the
position appended in place, a new key is appended at the end with `[p]`. -/
def appendPosition : List (String × List Nat) → String → Nat → List (String × List Nat)
  | [], k, p => [(k, [p])]
  | (k', ps) :: rest, k, p =>
    if k' = k then (k', ps ++ [p]) :: rest else (k', ps) :: appendPosition rest k p

/-- Python `str.strip(chars)`: remove the characters satisfying `p` from
both ends. -/
def pyStrip (p : Char → Bool) (l : List Char) : List Char :=
  ((l.dropWhile p).reverse.dropWhile p).reverse

/-- Quote characters stripped from a generated title, `strip('"\'')`. -/
def isQuoteC (c : Char) : Bool := c = '"' || c = '\''

/-- Round-half-to-even on the integers, the rounding mode of Python
`round`. -/
def roundHalfEven (q : ℚ) : ℤ :=
  if q - Int.floor q = 1 / 2 then
    (if Even (Int.floor q) then Int.floor q else Int.floor q + 1)
  else Int.floor (q + 1 / 2)

/-- Python `round(q, ndigits)` modelled exactly on the rationals. -/
def pyRound (q : ℚ) (ndigits : Nat) : ℚ :=
  (roundHalfEven (q * 10 ^ ndigits) : ℚ) / 10 ^ ndigits

/-! ### providers.py -/

/-- `get_provider` (providers.py): map a model ID to its provider name. -/
def get_provider (model_id : String) : String :=
  if startsWithL (str "claude") model_id.data then "anthropic"
  else if startsWithL (str "gemini") model_id.data then "google"
  else "openai"

/-- `MAX_TOOL_ROUNDS` (providers.py). -/
def MAX_TOOL_ROUNDS : Nat := 5

/-- One executed tool invocation, as recorded in `all_tool_calls`. -/
structure ToolCallRec where
  tool : String
  args : String
  result : List Char
deriving DecidableEq, Repr

/-- The normalized response produced by a successful adapter call. -/
structure ModelResponse where
  content : List Char
  usage : List (String × Nat)
  tool_calls : List ToolCallRec
deriving DecidableEq, Repr

/-- A tool call requested by the OpenAI API. -/
structure OAToolCall where
  id : String
  name : String
  arguments : String
deriving DecidableEq, Repr

/-- The message of the first choice of an OpenAI chat completion. -/
structure OAChoiceMessage where
  content : List Char
  tool_calls : List OAToolCall
deriving DecidableEq, Repr

/-- An OpenAI chat-completion response (first choice plus usage). -/
structure OAResponse where
  message : OAChoiceMessage
  usage : List (String × Nat)
deriving DecidableEq, Repr

/-- A message accumulated in `full_messages` during the tool loop. -/
inductive OAMessage where
  | system (content : List Char)
  | user (content : List Char)
  | assistantMsg (m : OAChoiceMessage)
  | toolResult (tool_call_id : String) (content : List Char)
deriving DecidableEq, Repr

/-- One request issued to the OpenAI API: whether tool schemas were
attached, and the conversation sent. -/
structure OARequest where
  withTools : Bool
  messages : List OAMessage
deriving DecidableEq, Repr, Inhabited

/-- The `for _ in range(MAX_TOOL_ROUNDS)` loop of `_query_openai`, with the
provider abstracted as the sequence `replies` of responses to the requests
issued (in order) and the tool registry abstracted as `exec`.  Returns the
result together with the log of issued requests.  The fuel-zero case is the
final request issued after the loop with tool schemas omitted. -/
def openaiToolLoop (replies : Nat → OAResponse) (exec : String → String → List Char)
    (hasTools : Bool) :
    Nat → Nat → List OAMessage → List ToolCallRec → ModelResponse × List OARequest
  | 0, k, msgs, acc =>
    let resp := replies k
    ({ content := resp.message.content, usage := resp.usage, tool_calls := acc },
      [{ withTools := false, messages := msgs }])
  | Nat.succ n, k, msgs, acc =>
    let resp := replies k
    let req : OARequest := { withTools := hasTools, messages := msgs }
    if resp.message.tool_calls.isEmpty then
      ({ content := resp.message.content, usage := resp.usage, tool_calls := acc }, [req])
    else
      let newRecs := resp.message.tool_calls.map fun tc =>
        ToolCallRec.mk tc.name tc.arguments ((exec tc.name tc.arguments).take 2000)
      let msgs2 := msgs ++ OAMessage.assistantMsg resp.message ::
        resp.message.tool_calls.map fun tc =>
          OAMessage.toolResult tc.id (exec tc.name tc.arguments)
      let rec_result := openaiToolLoop replies exec hasTools n (k + 1) msgs2 (acc ++ newRecs)
      (rec_result.1, req :: rec_result.2)

/-- `_query_openai` (providers.py) with the network abstracted: builds the
initial conversation (optional system prompt first) and runs the bounded
tool loop. -/
def _query_openai (replies : Nat → OAResponse) (exec : String → String → List Char)
    (messages : List OAMessage) (system_prompt : Option (List Char))
    (hasTools : Bool) : ModelResponse × List OARequest :=
  let full_messages :=
    (match system_prompt with
     | some s => [OAMessage.system s]
     | none => []) ++ messages
  openaiToolLoop replies exec hasTools MAX_TOOL_ROUNDS 0 full_messages []

/-- A provider behaviour in which every reply requests another tool call;
reply `k` carries the decimal rendering of `k` as its content. -/
def alwaysToolReplies : Nat → OAResponse := fun k =>
  { message := { content := str (toString k), tool_calls := [⟨"id", "t", "a"⟩] },
    usage := [] }

/-- Which provider clients are configured (API keys present). -/
structure ProviderEnv where
  openai_configured : Bool
  anthropic_configured : Bool
  google_configured : Bool
deriving DecidableEq, Repr

/-- The outcome of the provider interaction inside the adapter's `try`
block: either a normalized response or an exception (transport, auth or
provider-side). -/
inductive ProviderOutcome where
  | success (r : ModelResponse)
  | failure (msg : List Char)
deriving DecidableEq, Repr

/-- The shared shape of `_query_openai` / `_query_anthropic` /
`_query_google` at the error boundary: a missing client short-circuits to
`None` without any provider attempt; otherwise the `try`/`except` converts
any exception to `None`.  The Boolean records whether a provider request
was attempted. -/
def adapterCall (configured : Bool) (outcome : ProviderOutcome) :
    Option ModelResponse × Bool :=
  if configured then
    match outcome with
    | .success r => (some r, true)
    | .failure _ => (none, true)
  else (none, false)

/-- The client-configured flag consulted by the adapter selected for a
provider name. -/
def configuredFor (env : ProviderEnv) (provider : String) : Bool :=
  if provider = "anthropic" then env.anthropic_configured
  else if provider = "google" then env.google_configured
  else env.openai_configured

/-- `query_model` (providers.py): route to the adapter for the model's
provider and race it against the per-call timeout; `asyncio.TimeoutError`
is caught and converted to `None`. -/
def query_model (env : ProviderEnv) (model : String) (outcome : ProviderOutcome)
    (timedOut : Bool) : Option ModelResponse × Bool :=
  let result := adapterCall (configuredFor env (get_provider model)) outcome
  if timedOut then (none, result.2) else result

/-! ### config.py -/

/-- `MODEL_PRICING` (config.py): per-1M-token USD prices
`(input_price, output_price)`. -/
def MODEL_PRICING : List (String × (ℚ × ℚ)) :=
  [("claude-opus-4-6", (5.00, 25.00)),
   ("claude-sonnet-4-6", (3.00, 15.00)),
   ("claude-haiku-4-5-20251001", (1.00, 5.00)),
   ("gpt-5.2-pro", (21.00, 168.00)),
   ("gpt-5.2", (1.75, 14.00)),
   ("gpt-5-mini", (0.25, 2.00)),
   ("gpt-4.1", (2.00, 8.00)),
   ("gpt-4.1-mini", (0.40, 1.60)),
   ("gpt-4.1-nano", (0.10, 0.40)),
   ("o4-mini", (1.10, 4.40)),
   ("o3", (2.00, 8.00)),
   ("gemini-3.1-pro-preview", (2.00, 12.00)),
   ("gemini-3-flash-preview", (0.50, 3.00)),
   ("gemini-2.5-pro", (1.25, 10.00)),
   ("gemini-2.5-flash", (0.30, 2.50)),
   ("gemini-2.0-flash", (0.10, 0.40))]

/-! ### council.py -/

/-- `calculate_cost` (council.py): cost in USD for a model query from token
usage; `0.0` for an empty/absent usage dict or an unknown model. -/
def calculate_cost (model : String) (usage : List (String × Nat)) : ℚ :=
  if usage.isEmpty then 0
  else
    match dictGet? MODEL_PRICING model with
    | none => 0
    | some pricing =>
      (((dictGet? usage "input_tokens").getD 0 : ℚ) / 1000000) * pricing.1
        + (((dictGet? usage "output_tokens").getD 0 : ℚ) / 1000000) * pricing.2

/-- An image attachment `{mime_type, base64_data}`. -/
structure ImageAttachment where
  mime_type : String
  base64_data : String
deriving DecidableEq, Repr

/-- A chat message sent to a model (the `images` key modelled as a possibly
empty list). -/
structure ChatMessage where
  role : String
  content : List Char
  images : List ImageAttachment
deriving DecidableEq, Repr

/-- One `query_model` invocation as issued by the council orchestration:
the model, the conversation, the optional system prompt and whether tool
definitions were attached. -/
structure ChatCall where
  model : String
  messages : List ChatMessage
  system_prompt : Option (List Char)
  withTools : Bool
deriving DecidableEq, Repr

/-- The provider layer abstracted for the orchestration: what each issued
call returns (`none` is an abstention). -/
def Oracle : Type := ChatCall → Option ModelResponse

/-- `providers.query_model` as used by council.py, instrumented with the
log of issued calls. -/
def dispatch_query_model (o : Oracle) (model : String) (messages : List ChatMessage)
    (system_prompt : Option (List Char)) (withTools : Bool) :
    Option ModelResponse × List ChatCall :=
  (o ⟨model, messages, system_prompt, withTools⟩,
   [⟨model, messages, system_prompt, withTools⟩])

/-- `query_models_parallel` (providers.py): query every model and collect
`{model: response}` (a Python dict built in model order), instrumented with
the log of issued calls. -/
def query_models_parallel (o : Oracle) (models : List String)
    (messages : List ChatMessage) (system_prompt : Option (List Char))
    (withTools : Bool) :
    List (String × Option ModelResponse) × List ChatCall :=
  (models.foldl (fun d model => dictInsert d model (o ⟨model, messages, system_prompt, withTools⟩)) [],
   models.map fun model => ⟨model, messages, system_prompt, withTools⟩)

/-- A Stage 1 entry `{model, response, usage, cost, tool_calls?}` (the
optional `tool_calls` key modelled as a possibly empty list). -/
structure Stage1Result where
  model : String
  response : List Char
  usage : List (String × Nat)
  cost : ℚ
  tool_calls : List ToolCallRec
deriving DecidableEq, Repr

/-- A Stage 2 entry `{model, ranking, parsed_ranking, usage, cost}`. -/
structure Stage2Result where
  model : String
  ranking : List Char
  parsed_ranking : List (List Char)
  usage : List (String × Nat)
  cost : ℚ
deriving DecidableEq, Repr

/-- The Stage 3 record; `usage`/`cost` are `none` exactly when the
corresponding dict keys are absent (the zero-successes error value). -/
structure Stage3Result where
  model : String
  response : List Char
  usage : Option (List (String × Nat))
  cost : Option ℚ
deriving DecidableEq, Repr

/-- An aggregate ranking entry `{model, average_rank, rankings_count}`. -/
structure AggregateEntry where
  model : String
  average_rank : ℚ
  rankings_count : Nat
deriving DecidableEq, Repr, Inhabited

/-- The metadata of a completed run; `none` models the empty dict returned
on the zero-successes path. -/
structure CouncilMetadata where
  label_to_model : List (List Char × String)
  aggregate_rankings : List AggregateEntry
deriving DecidableEq, Repr

/-- The `previous_iteration` dict (re-analysis context); each field is
`none` when the key is missing. -/
structure PrevIteration where
  query : Option (List Char)
  system_prompt : Option (List Char)
  stage3_response : Option (List Char)
  critique : Option (List Char)
deriving DecidableEq, Repr

/-- `stage1_collect_responses` (council.py): build the user turn
(prepending file context when present), fan out to all council models, and
keep only the successful responses in dict order. -/
def stage1_collect_responses (o : Oracle) (user_query : List Char)
    (council_models : List String) (system_prompt : Option (List Char))
    (file_context : Option (List Char)) (image_attachments : List ImageAttachment)
    (withTools : Bool) : List Stage1Result × List ChatCall :=
  let content :=
    match file_context with
    | some fc => str "[ATTACHED FILES]\n" ++ fc ++ str "\n[END ATTACHED FILES]\n\n" ++ user_query
    | none => user_query
  let messages := [{ role := "user", content := content, images := image_attachments }]
  let rp := query_models_parallel o council_models messages system_prompt withTools
  (rp.1.filterMap fun mr =>
    mr.2.map fun resp =>
      { model := mr.1, response := resp.content, usage := resp.usage,
        cost := calculate_cost mr.1 resp.usage, tool_calls := resp.tool_calls },
   rp.2)

/-- The anonymized labels `chr(65 + i)` assigned to Stage 1 results. -/
def stage2Labels (n : Nat) : List Char := (List.range n).map fun i => Char.ofNat (65 + i)

/-- The `label_to_model` dict comprehension of `stage2_collect_rankings`. -/
def label_to_model_map (stage1_results : List Stage1Result) : List (List Char × String) :=
  ((stage2Labels stage1_results.length).zip stage1_results).foldl
    (fun d lr => dictInsert d (str "Response " ++ [lr.1]) lr.2.model) []

/-- Twenty-seven successful Stage 1 results with pairwise distinct model
names. -/
def c8Results : List Stage1Result :=
  (List.range 27).map fun i =>
    { model := "m" ++ toString i, response := [], usage := [], cost := 0, tool_calls := [] }

/-- The `responses_text` block of the ranking prompt. -/
def responsesText (stage1_results : List Stage1Result) : List Char :=
  joinSep (str "\n\n")
    (((stage2Labels stage1_results.length).zip stage1_results).map fun lr =>
      str "Response " ++ [lr.1] ++ str ":\n" ++ lr.2.response)

/-- The Stage 2 ranking prompt of council.py. -/
def rankingPrompt (user_query : List Char) (stage1_results : List Stage1Result) : List Char :=
  str "You are evaluating different responses to the following question:\n\nQuestion: "
    ++ user_query
    ++ str "\n\nHere are the responses from different models (anonymized):\n\n"
    ++ responsesText stage1_results
    ++ str "\n\nYour task:\n1. First, evaluate each response individually. For each response, explain what it does well and what it does poorly.\n2. Then, at the very end of your response, provide a final ranking.\n\nIMPORTANT: Your final ranking MUST be formatted EXACTLY as follows:\n- Start with the line \"FINAL RANKING:\" (all caps, with colon)\n- Then list the responses from best to worst as a numbered list\n- Each line should be: number, period, space, then ONLY the response label (e.g., \"1. Response A\")\n- Do not add any other text or explanations in the ranking section\n\nExample of the correct format for your ENTIRE response:\n\nResponse A provides good detail on X but misses Y...\nResponse B is accurate but lacks depth on Z...\nResponse C offers the most comprehensive answer...\n\nFINAL RANKING:\n1. Response C\n2. Response A\n3. Response B\n\nNow provide your evaluation and ranking:"

/-- `stage2_collect_rankings` (council.py): label the Stage 1 results, send
the ranking prompt (no system prompt, no tools) to the council, parse each
reply. -/
def stage2_collect_rankings (o : Oracle) (user_query : List Char)
    (stage1_results : List Stage1Result) (council_models : List String) :
    (List Stage2Result × List (List Char × String)) × List ChatCall :=
  let label_to_model := label_to_model_map stage1_results
  let messages : List ChatMessage :=
    [{ role := "user", content := rankingPrompt user_query stage1_results, images := [] }]
  let rp := query_models_parallel o council_models messages none false
  ((rp.1.filterMap fun mr =>
      mr.2.map fun resp =>
        { model := mr.1, ranking := resp.content,
          parsed_ranking := parse_ranking_from_text resp.content,
          usage := resp.usage, cost := calculate_cost mr.1 resp.usage },
    label_to_model), rp.2)

/-- `calculate_aggregate_rankings` (council.py): re-parse every rater's
ranking text, record 1-based positions per resolved model in a
`defaultdict(list)`, then emit `{model, average_rank, rankings_count}` in
dict insertion order and stable-sort ascending by average rank. -/
def calculate_aggregate_rankings (stage2_results : List Stage2Result)
    (label_to_model : List (List Char × String)) : List AggregateEntry :=
  let model_positions :=
    stage2_results.foldl
      (fun mp ranking =>
        (enumFrom 1 (parse_ranking_from_text ranking.ranking)).foldl
          (fun mp pl =>
            match dictGet? label_to_model pl.2 with
            | some model_name => appendPosition mp model_name pl.1
            | none => mp)
          mp)
      []
  let aggregate := model_positions.filterMap fun kv =>
    if kv.2.isEmpty then none
    else some { model := kv.1,
                average_rank := pyRound ((kv.2.sum : ℚ) / (kv.2.length : ℚ)) 2,
                rankings_count := kv.2.length }
  List.insertionSort (fun a b => a.average_rank ≤ b.average_rank) aggregate

/-- All `(position, label)` occurrences across the raters, in rater order
then position order — the stream of events processed by the aggregator's
nested loops. -/
def aggEvents (stage2_results : List Stage2Result) : List (Nat × List Char) :=
  (stage2_results.map fun r => enumFrom 1 (parse_ranking_from_text r.ranking)).flatten

/-- One event step of the aggregator's position-recording loop. -/
def aggStep (label_to_model : List (List Char × String))
    (mp : List (String × List Nat)) (pl : Nat × List Char) : List (String × List Nat) :=
  match dictGet? label_to_model pl.2 with
  | some model_name => appendPosition mp model_name pl.1
  | none => mp

/-- The models resolved by the events, with multiplicity, in order. -/
def resolvedModels (label_to_model : List (List Char × String))
    (evs : List (Nat × List Char)) : List String :=
  evs.filterMap fun pl => dictGet? label_to_model pl.2

/-- The positions the aggregator records for model `k`. -/
def resolvedPositions (label_to_model : List (List Char × String))
    (evs : List (Nat × List Char)) (k : String) : List Nat :=
  evs.filterMap fun pl =>
    match dictGet? label_to_model pl.2 with
    | some m => if m = k then some pl.1 else none
    | none => none

/-- The aggregate entry computed for model `k` from its recorded
positions. -/
def aggEntryOf (k : String) (ps : List Nat) : AggregateEntry :=
  ⟨k, pyRound ((ps.sum : ℚ) / (ps.length : ℚ)) 2, ps.length⟩

/-- The models of the aggregate in pre-sort (dict-insertion) order. -/
def aggModelKeys (label_to_model : List (List Char × String))
    (stage2_results : List Stage2Result) : List String :=
  ((aggEvents stage2_results).foldl (aggStep label_to_model) []).map Prod.fst

/-- A two-model label map for aggregation tests. -/
def c5LabelMap : List (List Char × String) :=
  [(str "Response A", "m1"), (str "Response B", "m2")]

/-- A rater ranking `Response A` above `Response B`. -/
def c5RaterAB : Stage2Result :=
  { model := "r1",
    ranking := str "FINAL RANKING:\n1. Response A\n2. Response B",
    parsed_ranking := parse_ranking_from_text (str "FINAL RANKING:\n1. Response A\n2. Response B"),
    usage := [], cost := 0 }

/-- A rater ranking `Response B` above `Response A`. -/
def c5RaterBA : Stage2Result :=
  { model := "r2",
    ranking := str "FINAL RANKING:\n1. Response B\n2. Response A",
    parsed_ranking := parse_ranking_from_text (str "FINAL RANKING:\n1. Response B\n2. Response A"),
    usage := [], cost := 0 }

/-- The chairman synthesis prompt of `stage3_synthesize_final`. -/
def chairmanPrompt (user_query : List Char) (stage1_results : List Stage1Result)
    (stage2_results : List Stage2Result) (previous_iteration : Option PrevIteration) :
    List Char :=
  let stage1_text := joinSep (str "\n\n")
    (stage1_results.map fun r => str "Model: " ++ r.model.data ++ str "\nResponse: " ++ r.response)
  let stage2_text := joinSep (str "\n\n")
    (stage2_results.map fun r => str "Model: " ++ r.model.data ++ str "\nRanking: " ++ r.ranking)
  let base :=
    str "You are the Chairman of an LLM Council. Multiple AI models have provided responses to a user's question, and then ranked each other's responses.\n\nOriginal Question: "
      ++ user_query
      ++ str "\n\nSTAGE 1 - Individual Responses:\n" ++ stage1_text
      ++ str "\n\nSTAGE 2 - Peer Rankings:\n" ++ stage2_text
  let withPrev :=
    match previous_iteration with
    | some pi =>
      base ++ str "\n\nPREVIOUS ITERATION CONTEXT:\nThis is a re-analysis. In the previous iteration:\n- Previous Query: "
        ++ pi.query.getD (str "N/A")
        ++ str "\n- Previous System Prompt: " ++ pi.system_prompt.getD (str "None")
        ++ str "\n- Previous Synthesis: " ++ pi.stage3_response.getD (str "N/A")
        ++ str "\n- Critique of Previous Analysis: " ++ pi.critique.getD (str "N/A")
        ++ str "\n\nConsider how the current responses compare to the previous iteration. Note improvements or regressions."
    | none => base
  withPrev
    ++ str "\n\nYour task as Chairman is to synthesize all of this information into a single, comprehensive, accurate answer to the user's original question. Consider:\n- The individual responses and their insights\n- The peer rankings and what they reveal about response quality\n- Any patterns of agreement or disagreement\n\nProvide a clear, well-reasoned final answer that represents the council's collective wisdom:"

/-- `stage3_synthesize_final` (council.py): one chairman call, with a fixed
fallback record when the chairman abstains. -/
def stage3_synthesize_final (o : Oracle) (user_query : List Char)
    (stage1_results : List Stage1Result) (stage2_results : List Stage2Result)
    (chairman_model : String) (previous_iteration : Option PrevIteration) :
    Stage3Result × List ChatCall :=
  let messages : List ChatMessage :=
    [{ role := "user",
       content := chairmanPrompt user_query stage1_results stage2_results previous_iteration,
       images := [] }]
  let rc := dispatch_query_model o chairman_model messages none false
  (match rc.1 with
   | none =>
     { model := chairman_model,
       response := str "Error: Unable to generate final synthesis.",
       usage := some [("input_tokens", 0), ("output_tokens", 0)], cost := some 0 }
   | some resp =>
     { model := chairman_model, response := resp.content, usage := some resp.usage,
       cost := some (calculate_cost chairman_model resp.usage) },
   rc.2)

/-- The four Stage 4 section keys. -/
inductive Stage4Key where
  | critique
  | comparison
  | suggested_system_prompt
  | suggested_query
deriving DecidableEq, Repr

/-- The parsed Stage 4 sections, all initialised to the empty string. -/
structure Stage4Parsed where
  critique : List Char
  comparison : List Char
  suggested_system_prompt : List Char
  suggested_query : List Char
deriving DecidableEq, Repr

/-- The all-empty Stage 4 record. -/
def emptyStage4Parsed : Stage4Parsed := ⟨[], [], [], []⟩

/-- The section headers searched by `parse_stage4_response`, in declaration
order. -/
def stage4Sections : List (List Char × Stage4Key) :=
  [(str "CRITIQUE:", Stage4Key.critique),
   (str "COMPARISON:", Stage4Key.comparison),
   (str "SUGGESTED_SYSTEM_PROMPT:", Stage4Key.suggested_system_prompt),
   (str "SUGGESTED_QUERY:", Stage4Key.suggested_query)]

/-- `result[key] = value` for the Stage 4 record. -/
def assignStage4 (r : Stage4Parsed) : Stage4Key → List Char → Stage4Parsed
  | Stage4Key.critique, v => { r with critique := v }
  | Stage4Key.comparison, v => { r with comparison := v }
  | Stage4Key.suggested_system_prompt, v => { r with suggested_system_prompt := v }
  | Stage4Key.suggested_query, v => { r with suggested_query := v }

/-- Slice each found section's content up to the next header's offset (or
the end of the text) and strip it. -/
def sliceStage4 (text : List Char) :
    List (Nat × List Char × Stage4Key) → Stage4Parsed → Stage4Parsed
  | [], acc => acc
  | (pos, header, key) :: rest, acc =>
    let start := pos + header.length
    let stop :=
      match rest with
      | (pos2, _, _) :: _ => pos2
      | [] => text.length
    sliceStage4 text rest
      (assignStage4 acc key (pyStrip isSpaceC ((text.drop start).take (stop - start))))

/-- `parse_stage4_response` (council.py): locate the section headers, sort
by text offset, slice; a response with no header at all puts its whole
stripped text into `critique`. -/
def parse_stage4_response (text : List Char) : Stage4Parsed :=
  let positions := stage4Sections.filterMap fun hk =>
    (firstIdx? hk.1 text).map fun idx => (idx, hk.1, hk.2)
  if positions.isEmpty then
    { emptyStage4Parsed with critique := pyStrip isSpaceC text }
  else
    sliceStage4 text (List.insertionSort (fun a b => a.1 ≤ b.1) positions) emptyStage4Parsed

/-- The Stage 4 record returned by `stage4_self_reflection`. -/
structure Stage4Result where
  model : String
  critique : List Char
  comparison : List Char
  suggested_system_prompt : List Char
  suggested_query : List Char
  raw_response : List Char
  usage : List (String × Nat)
  cost : ℚ
deriving DecidableEq, Repr

/-- The chairman self-reflection prompt of `stage4_self_reflection`. -/
def reflectionPrompt (user_query : List Char) (system_prompt : Option (List Char))
    (stage1_results : List Stage1Result) (stage3_result : Stage3Result)
    (previous_iteration : Option PrevIteration) : List Char :=
  let stage1_summary := joinSep (str "\n")
    (stage1_results.map fun r =>
      str "- " ++ r.model.data ++ str ": " ++ r.response.take 200 ++ str "...")
  let base :=
    str "You are the Chairman of an LLM Council. You just completed a full analysis. Now reflect on how it could be improved.\n\nOriginal Query: "
      ++ user_query
      ++ str "\nSystem Prompt Used: " ++ system_prompt.getD (str "None")
      ++ str "\n\nStage 1 Responses (summarized):\n" ++ stage1_summary
      ++ str "\n\nStage 3 Final Synthesis:\n" ++ stage3_result.response
  let withPrev :=
    match previous_iteration with
    | some pi =>
      base ++ str "\n\nPREVIOUS ITERATION:\n- Previous Query: "
        ++ pi.query.getD (str "N/A")
        ++ str "\n- Previous System Prompt: " ++ pi.system_prompt.getD (str "None")
        ++ str "\n- Previous Synthesis: " ++ pi.stage3_response.getD (str "N/A")
    | none => base
  let withCritique :=
    withPrev ++ str "\n\nProvide your self-reflection using EXACTLY these section headers:\n\nCRITIQUE:\nWhat were the weaknesses or gaps in this analysis? What could the council have done better? Be specific and actionable.\n"
  let withComparison :=
    match previous_iteration with
    | some _ =>
      withCritique ++ str "\nCOMPARISON:\nHow does this iteration compare to the previous one? What improved? What regressed or remained unaddressed?\n"
    | none => withCritique
  withComparison
    ++ str "\nSUGGESTED_SYSTEM_PROMPT:\nWrite an improved system prompt that would help the council models produce better responses. If the current system prompt was good, refine it. If none was used, suggest one. Output ONLY the system prompt text.\n\nSUGGESTED_QUERY:\nWrite an improved version of the user's query that would elicit better responses. Make it more specific, clearer, or better structured. Output ONLY the query text."

/-- `stage4_self_reflection` (council.py): one chairman call, parsed into
sections, with a fixed fallback record when the chairman abstains. -/
def stage4_self_reflection (o : Oracle) (user_query : List Char)
    (system_prompt : Option (List Char)) (stage1_results : List Stage1Result)
    (stage3_result : Stage3Result) (chairman_model : String)
    (previous_iteration : Option PrevIteration) : Stage4Result × List ChatCall :=
  let messages : List ChatMessage :=
    [{ role := "user",
       content := reflectionPrompt user_query system_prompt stage1_results stage3_result
         previous_iteration,
       images := [] }]
  let rc := dispatch_query_model o chairman_model messages none false
  (match rc.1 with
   | none =>
     { model := chairman_model,
       critique := str "Error: Unable to generate self-reflection.",
       comparison := [],
       suggested_system_prompt := system_prompt.getD [],
       suggested_query := user_query,
       raw_response := [],
       usage := [("input_tokens", 0), ("output_tokens", 0)], cost := 0 }
   | some resp =>
     let parsed := parse_stage4_response resp.content
     { model := chairman_model,
       critique := parsed.critique, comparison := parsed.comparison,
       suggested_system_prompt := parsed.suggested_system_prompt,
       suggested_query := parsed.suggested_query,
       raw_response := resp.content,
       usage := resp.usage, cost := calculate_cost chairman_model resp.usage },
   rc.2)

/-- The title-generation prompt of `generate_conversation_title`. -/
def titlePrompt (user_query : List Char) : List Char :=
  str "Generate a very short title (3-5 words maximum) that summarizes the following question.\nThe title should be concise and descriptive. Do not use quotes or punctuation in the title.\n\nQuestion: "
    ++ user_query ++ str "\n\nTitle:"

/-- `generate_conversation_title` (council.py) given the outcome of its
single model call (the 30s-timeout call to `gemini-2.0-flash`, whose
timeout and errors surface here as `none`): fall back to
`"New Conversation"` on abstention, otherwise strip whitespace then
quotes and truncate to at most 50 characters. -/
def generate_conversation_title (response : Option ModelResponse) : List Char :=
  match response with
  | none => str "New Conversation"
  | some r =>
    let title := pyStrip isSpaceC r.content
    let title2 := pyStrip isQuoteC title
    if 50 < title2.length then title2.take 47 ++ str "..." else title2

/-- The title call as issued by the streaming endpoint (model defaulted to
`gemini-2.0-flash`). -/
def generate_conversation_title_call (o : Oracle) (user_query : List Char) :
    List Char × List ChatCall :=
  let messages : List ChatMessage :=
    [{ role := "user", content := titlePrompt user_query, images := [] }]
  let rc := dispatch_query_model o "gemini-2.0-flash" messages none false
  (generate_conversation_title rc.1, rc.2)

/-- `run_full_council` (council.py): Stage 1 fan-out; zero successes
short-circuits to the fixed error result; otherwise Stage 2, aggregation
and Stage 3.  The second component is the log of issued model calls. -/
def run_full_council (o : Oracle) (user_query : List Char)
    (council_models : List String) (chairman_model : String)
    (system_prompt : Option (List Char)) :
    (List Stage1Result × List Stage2Result × Stage3Result × Option CouncilMetadata)
      × List ChatCall :=
  let s1 := stage1_collect_responses o user_query council_models system_prompt none [] false
  if s1.1.isEmpty then
    (([], [],
      { model := "error",
        response := str "All models failed to respond. Please try again.",
        usage := none, cost := none }, none), s1.2)
  else
    let s2 := stage2_collect_rankings o user_query s1.1 council_models
    let aggregate_rankings := calculate_aggregate_rankings s2.1.1 s2.1.2
    let s3 := stage3_synthesize_final o user_query s1.1 s2.1.1 chairman_model none
    ((s1.1, s2.1.1, s3.1,
      some { label_to_model := s2.1.2, aggregate_rankings := aggregate_rankings }),
     s1.2 ++ s2.2 ++ s3.2)

/-! ### main.py: the streaming emitter -/

/-- The `cost_summary` payload. -/
structure CostSummary where
  stage1 : ℚ
  stage2 : ℚ
  stage3 : ℚ
  stage4 : ℚ
  total : ℚ
  by_model : List (String × ℚ)
deriving DecidableEq, Repr

/-- The typed server-sent events emitted by `event_generator`. -/
inductive SSEvent where
  | stage1_start
  | stage1_complete (data : List Stage1Result)
  | stage2_start
  | stage2_complete (data : List Stage2Result)
      (label_to_model : List (List Char × String))
      (aggregate_rankings : List AggregateEntry)
  | stage3_start
  | stage3_complete (data : Stage3Result)
  | stage4_start
  | stage4_complete (data : Stage4Result)
  | title_complete (title : List Char)
  | cost_summary (data : CostSummary)
  | complete
  | error (message : List Char)
deriving DecidableEq, Repr

/-- The event types, payloads erased. -/
inductive EvType where
  | stage1_start
  | stage1_complete
  | stage2_start
  | stage2_complete
  | stage3_start
  | stage3_complete
  | stage4_start
  | stage4_complete
  | title_complete
  | cost_summary
  | complete
  | error
deriving DecidableEq, Repr

/-- The type of an event. -/
def etype : SSEvent → EvType
  | SSEvent.stage1_start => EvType.stage1_start
  | SSEvent.stage1_complete _ => EvType.stage1_complete
  | SSEvent.stage2_start => EvType.stage2_start
  | SSEvent.stage2_complete _ _ _ => EvType.stage2_complete
  | SSEvent.stage3_start => EvType.stage3_start
  | SSEvent.stage3_complete _ => EvType.stage3_complete
  | SSEvent.stage4_start => EvType.stage4_start
  | SSEvent.stage4_complete _ => EvType.stage4_complete
  | SSEvent.title_complete _ => EvType.title_complete
  | SSEvent.cost_summary _ => EvType.cost_summary
  | SSEvent.complete => EvType.complete
  | SSEvent.error _ => EvType.error

/-- A step of the generator body: either a `yield` or an awaited operation
(identified by a fixed index) that may raise. -/
inductive GenStep where
  | emit (e : SSEvent)
  | op (n : Nat)
deriving DecidableEq, Repr

/-- Run a generator script under the `try`/`except` of `event_generator`:
`failAt = some n` means awaited operation `n` raises; the `except` clause
yields a single terminal `error` event and the generator stops. -/
def runGen (errMsg : List Char) : List GenStep → Option Nat → List SSEvent
  | [], _ => []
  | GenStep.emit e :: rest, failAt => e :: runGen errMsg rest failAt
  | GenStep.op n :: rest, failAt =>
    if failAt = some n then [SSEvent.error errMsg] else runGen errMsg rest failAt

/-- The body of a `send_message_stream` request (main.py
`SendMessageRequest`; `withTools` records whether `enabled_tools` resolved
to a non-empty tool list). -/
structure SendMessageReq where
  content : List Char
  council_models : List String
  chairman_model : String
  system_prompt : Option (List Char)
  previous_iteration : Option PrevIteration
  provide_context_to_council : Bool
  withTools : Bool

/-- The inputs of one `event_generator` run: the provider oracle, the
request body, whether this is the conversation's first turn, the
file/connector context the collaborators return, and the outcome of the
concurrently launched title-generation call. -/
structure GenInputs where
  o : Oracle
  req : SendMessageReq
  is_first_message : Bool
  file_context : Option (List Char)
  image_attachments : List ImageAttachment
  connector_context : List Char
  titleResponse : Option ModelResponse

/-- The `council_query` local of `event_generator`: the user content,
prefixed with a previous-iteration context block on a re-run with
`provide_context_to_council`. -/
def egCouncilQuery (g : GenInputs) : List Char :=
  match g.req.previous_iteration with
  | some pi =>
    if g.req.provide_context_to_council then
      str "[CONTEXT FROM PREVIOUS ANALYSIS]\nThis is a re-analysis. The previous query was: \""
        ++ pi.query.getD [] ++ str "\"\nThe chairman's critique of the previous analysis: "
        ++ pi.critique.getD (str "N/A") ++ str "\n[END CONTEXT]\n\n" ++ g.req.content
    else g.req.content
  | none => g.req.content

/-- The `file_context` argument passed to Stage 1: connector context
prepended when non-empty, and the empty string converted to `None`. -/
def egFileContextArg (g : GenInputs) : Option (List Char) :=
  let merged :=
    if g.connector_context.isEmpty then g.file_context
    else some (g.connector_context ++ g.file_context.getD [])
  match merged with
  | some l => if l.isEmpty then none else some l
  | none => none

/-- The `stage1_results` local of `event_generator`. -/
def egStage1 (g : GenInputs) : List Stage1Result × List ChatCall :=
  stage1_collect_responses g.o (egCouncilQuery g) g.req.council_models
    g.req.system_prompt (egFileContextArg g) g.image_attachments g.req.withTools

/-- The `stage2_results, label_to_model` locals of `event_generator`. -/
def egStage2 (g : GenInputs) : (List Stage2Result × List (List Char × String)) × List ChatCall :=
  stage2_collect_rankings g.o g.req.content (egStage1 g).1 g.req.council_models

/-- The `aggregate_rankings` local of `event_generator`. -/
def egAggregate (g : GenInputs) : List AggregateEntry :=
  calculate_aggregate_rankings (egStage2 g).1.1 (egStage2 g).1.2

/-- The `stage3_result` local of `event_generator`. -/
def egStage3 (g : GenInputs) : Stage3Result × List ChatCall :=
  stage3_synthesize_final g.o g.req.content (egStage1 g).1 (egStage2 g).1.1
    g.req.chairman_model g.req.previous_iteration

/-- The `stage4_result` local of `event_generator`. -/
def egStage4 (g : GenInputs) : Stage4Result × List ChatCall :=
  stage4_self_reflection g.o g.req.content g.req.system_prompt (egStage1 g).1
    (egStage3 g).1 g.req.chairman_model g.req.previous_iteration

/-- The joined title of `event_generator`. -/
def egTitle (g : GenInputs) : List Char :=
  generate_conversation_title g.titleResponse

/-- The `cost_summary` payload of `event_generator`. -/
def egCostSummary (g : GenInputs) : CostSummary :=
  let stage1_cost := ((egStage1 g).1.map Stage1Result.cost).sum
  let stage2_cost := ((egStage2 g).1.1.map Stage2Result.cost).sum
  let stage3_cost := (egStage3 g).1.cost.getD 0
  let stage4_cost := (egStage4 g).1.cost
  let total_cost := stage1_cost + stage2_cost + stage3_cost + stage4_cost
  let model_costs :=
    ((egStage1 g).1.map (fun r => (r.model, r.cost))
        ++ (egStage2 g).1.1.map fun r => (r.model, r.cost)).foldl
      (fun d mc => dictInsert d mc.1 ((dictGet? d mc.1).getD 0 + mc.2)) []
  let model_costs2 := dictInsert model_costs g.req.chairman_model
    ((dictGet? model_costs g.req.chairman_model).getD 0 + stage3_cost + stage4_cost)
  { stage1 := pyRound stage1_cost 6, stage2 := pyRound stage2_cost 6,
    stage3 := pyRound stage3_cost 6, stage4 := pyRound stage4_cost 6,
    total := pyRound total_cost 6,
    by_model := model_costs2.map fun mc => (mc.1, pyRound mc.2 6) }

/-- The script of `send_message_stream.event_generator`: the interleaving
of awaited operations (op 0 `add_user_message`, op 1 file-context fetch,
ops 2–5 the four stages, ops 6/7 title join and title persistence, op 8
the assistant-message save) and the emitted events, with each stage's data
computed by the embedded council functions. -/
def event_generator_script (g : GenInputs) : List GenStep :=
  [GenStep.op 0, GenStep.op 1,
   GenStep.emit SSEvent.stage1_start, GenStep.op 2,
   GenStep.emit (SSEvent.stage1_complete (egStage1 g).1),
   GenStep.emit SSEvent.stage2_start, GenStep.op 3,
   GenStep.emit (SSEvent.stage2_complete (egStage2 g).1.1 (egStage2 g).1.2 (egAggregate g)),
   GenStep.emit SSEvent.stage3_start, GenStep.op 4,
   GenStep.emit (SSEvent.stage3_complete (egStage3 g).1),
   GenStep.emit SSEvent.stage4_start, GenStep.op 5,
   GenStep.emit (SSEvent.stage4_complete (egStage4 g).1)]
  ++ (if g.is_first_message then
        [GenStep.op 6, GenStep.op 7, GenStep.emit (SSEvent.title_complete (egTitle g))]
      else [])
  ++ [GenStep.emit (SSEvent.cost_summary (egCostSummary g)), GenStep.op 8,
      GenStep.emit SSEvent.complete]

/-- `send_message_stream.event_generator` (main.py), as the run of its
script with at most one failing awaited operation. -/
def event_generator (g : GenInputs) (errMsg : List Char) (failAt : Option Nat) :
    List SSEvent :=
  runGen errMsg (event_generator_script g) failAt

/-- The event types a script would emit if no operation failed. -/
def scriptEmitTypes : List GenStep → List EvType
  | [] => []
  | GenStep.emit e :: rest => etype e :: scriptEmitTypes rest
  | GenStep.op _ :: rest => scriptEmitTypes rest

/-- A concrete first-turn generator input against an all-abstaining
oracle. -/
def c9Inputs : GenInputs :=
  { o := fun _ => none,
    req := { content := str "hi", council_models := ["gpt-4.1"], chairman_model := "o3",
             system_prompt := none, previous_iteration := none,
             provide_context_to_council := false, withTools := false },
    is_first_message := true,
    file_context := none, image_attachments := [], connector_context := [],
    titleResponse := none }

/-- The complete event-type sequence of a successful run. -/
def fullOrderTypes (is_first_message : Bool) : List EvType :=
  [EvType.stage1_start, EvType.stage1_complete, EvType.stage2_start,
   EvType.stage2_complete, EvType.stage3_start, EvType.stage3_complete,
   EvType.stage4_start, EvType.stage4_complete]
  ++ (if is_first_message then [EvType.title_complete] else [])
  ++ [EvType.cost_summary, EvType.complete]

/-- No `error` event except in terminal position. -/
def errorTerminalB : List EvType → Bool
  | [] => true
  | [_] => true
  | t :: rest => (t ≠ EvType.error : Bool) && errorTerminalB rest

/-- Helper: every `title_complete` is preceded by a `stage4_complete`
(`seen` records whether a `stage4_complete` has occurred). -/
def titleAfterStage4Go (seen : Bool) : List EvType → Bool
  | [] => true
  | t :: rest =>
    if t = EvType.title_complete then seen && titleAfterStage4Go seen rest
    else titleAfterStage4Go (seen || t = EvType.stage4_complete) rest

/-- Every `title_complete` event occurs after a `stage4_complete` event. -/
def titleAfterStage4B (ts : List EvType) : Bool := titleAfterStage4Go false ts

theorem startsWithL_nil_false {p : Char} {ps : List Char} :
    startsWithL (p :: ps) [] = false := rfl

theorem firstIdx?_nil {sep : List Char} (h : sep ≠ []) :
    firstIdx? sep [] = none := by
  match sep with
  | [] => exact absurd rfl h
  | p :: ps => simp [firstIdx?, startsWithL]

theorem splitOnSepFuel_ne_nil (sep : List Char) (fuel : Nat) (l : List Char) :
    splitOnSepFuel sep fuel l ≠ [] := by
  cases fuel with
  | zero => simp [splitOnSepFuel]
  | succ n =>
    unfold splitOnSepFuel
    cases firstIdx? sep l <;> simp

theorem splitOnSepFuel_getD_zero (sep : List Char) (fuel : Nat) (l : List Char) :
    (splitOnSepFuel sep (fuel + 1) l).getD 0 [] = takeUntilSub sep l := by
  unfold splitOnSepFuel takeUntilSub
  cases firstIdx? sep l <;> simp

theorem containsSub_firstIdx {sep l : List Char}
    (h : containsSub sep l = true) : ∃ i, firstIdx? sep l = some i := by
  unfold containsSub at h
  cases hf : firstIdx? sep l with
  | none => rw [hf] at h; simp [Option.isSome] at h
  | some i => exact ⟨i, rfl⟩

theorem splitOnSep_two_le {sep l : List Char}
    (h : containsSub sep l = true) : 2 ≤ (splitOnSep sep l).length := by
  obtain ⟨i, hf⟩ := containsSub_firstIdx h
  unfold splitOnSep
  unfold splitOnSepFuel
  rw [hf]
  simp only [List.length_cons]
  have hne := splitOnSepFuel_ne_nil sep l.length (l.drop (i + sep.length))
  have : 1 ≤ (splitOnSepFuel sep l.length (l.drop (i + sep.length))).length := by
    cases hl : splitOnSepFuel sep l.length (l.drop (i + sep.length)) with
    | nil => exact absurd hl hne
    | cons a t => simp
  omega

theorem splitOnSep_getD_one {sep l : List Char} (hsep : sep ≠ [])
    (h : containsSub sep l = true) :
    (splitOnSep sep l).getD 1 [] =
      takeUntilSub sep
        (match firstIdx? sep l with
         | some i => l.drop (i + sep.length)
         | none => l) := by
  obtain ⟨i, hf⟩ := containsSub_firstIdx h
  have hlne : l ≠ [] := by
    intro hnil
    rw [hnil, firstIdx?_nil hsep] at hf
    exact Option.noConfusion hf
  unfold splitOnSep
  unfold splitOnSepFuel
  rw [hf]
  simp only [List.getD_cons_succ]
  obtain ⟨k, hk⟩ : ∃ k, l.length = k + 1 := by
    cases l with
    | nil => exact absurd rfl hlne
    | cons a t => exact ⟨t.length, by simp⟩
  rw [hk, splitOnSepFuel_getD_zero]

theorem startsWithL_of_take {p : List Char} :
    ∀ {l : List Char} {k : Nat}, startsWithL p (l.take k) = true →
      startsWithL p l = true := by
  induction p with
  | nil => intro l k _; rfl
  | cons c cs ih =>
    intro l k h
    cases l with
    | nil => cases k <;> simpa [startsWithL] using h
    | cons a as =>
      cases k with
      | zero => simp [startsWithL] at h
      | succ m =>
        simp only [List.take_cons_succ, startsWithL, Bool.and_eq_true] at h ⊢
        exact ⟨h.1, ih h.2⟩

theorem matchPlainAt_of_take {l : List Char} {k : Nat} {w : List Char}
    (h : matchPlainAt (l.take k) = some w) : matchPlainAt l = some w := by
  unfold matchPlainAt at h ⊢
  by_cases hs : startsWithL (str "Response ") (l.take k) = true
  · rw [if_pos hs] at h
    rw [if_pos (startsWithL_of_take hs)]
    rw [List.drop_take] at h
    cases hd : l.drop 9 with
    | nil => rw [hd] at h; simp at h
    | cons c cs =>
      rw [hd] at h
      cases hk : k - 9 with
      | zero => rw [hk] at h; simp at h
      | succ m => rw [hk] at h; simpa using h
  · rw [if_neg hs] at h
    exact absurd h (by simp)

theorem matchNumberedAt_plain_exists {x w : List Char}
    (h : matchNumberedAt x = some w) :
    ∃ j, matchPlainAt (x.drop j) ≠ none := by
  unfold matchNumberedAt at h
  by_cases hds : (x.takeWhile isDigitC).isEmpty
  · rw [if_pos hds] at h; exact absurd h (by simp)
  · rw [if_neg hds] at h
    split at h
    next r2 hdrop =>
      simp only at h
      split at h
      next p hp =>
        refine ⟨(x.takeWhile isDigitC).length + 1 + (r2.takeWhile isSpaceC).length, ?_⟩
        have hr2 : x.drop ((x.takeWhile isDigitC).length + 1) = r2 := by
          rw [← List.drop_drop, hdrop, List.drop_one]
          rfl
        have hsplit : x.drop ((x.takeWhile isDigitC).length + 1 +
            (r2.takeWhile isSpaceC).length) = r2.drop (r2.takeWhile isSpaceC).length := by
          rw [← List.drop_drop, hr2]
        rw [hsplit, hp]
        simp
      next => exact absurd h (by simp)
    next => exact absurd h (by simp)

theorem findallFuel_eq_nil_iff {m : List Char → Option (List Char)}
    (hm : m [] = none) :
    ∀ (fuel : Nat) (l : List Char), l.length ≤ fuel →
      (findallFuel m fuel l = [] ↔ ∀ i, m (l.drop i) = none) := by
  intro fuel
  induction fuel with
  | zero =>
    intro l hl
    have hnil : l = [] := List.eq_nil_of_length_eq_zero (Nat.le_zero.mp hl)
    subst hnil
    simp [findallFuel, hm]
  | succ n ih =>
    intro l hl
    cases l with
    | nil => simp [findallFuel, hm]
    | cons c cs =>
      unfold findallFuel
      cases h : m (c :: cs) with
      | some w =>
        constructor
        · intro hc; exact absurd hc (by simp)
        · intro hall
          have := hall 0
          rw [List.drop_zero] at this
          rw [h] at this
          exact absurd this (by simp)
      | none =>
        have hlen : cs.length ≤ n := by simpa using hl
        rw [ih cs hlen]
        constructor
        · intro hall i
          cases i with
          | zero => simpa [h]
          | succ j => simpa using hall j
        · intro hall i
          simpa using hall (i + 1)

theorem findallPlain_eq_nil_iff {l : List Char} :
    findallPlain l = [] ↔ ∀ i, matchPlainAt (l.drop i) = none :=
  findallFuel_eq_nil_iff (by rfl) l.length l (le_refl _)

theorem findallNumbered_eq_nil_iff {l : List Char} :
    findallNumbered l = [] ↔ ∀ i, matchNumberedAt (l.drop i) = none :=
  findallFuel_eq_nil_iff (by rfl) l.length l (le_refl _)

theorem takeUntilSub_of_some {sep l : List Char} {i : Nat}
    (h : firstIdx? sep l = some i) : takeUntilSub sep l = l.take i := by
  unfold takeUntilSub; rw [h]

theorem takeUntilSub_of_none {sep l : List Char}
    (h : firstIdx? sep l = none) : takeUntilSub sep l = l := by
  unfold takeUntilSub; rw [h]

theorem afterFirstMarker_of_some {l : List Char} {i : Nat}
    (h : firstIdx? finalRankingMarker l = some i) :
    afterFirstMarker l = l.drop (i + finalRankingMarker.length) := by
  unfold afterFirstMarker; rw [h]

theorem afterFirstMarker_of_none {l : List Char}
    (h : firstIdx? finalRankingMarker l = none) : afterFirstMarker l = l := by
  unfold afterFirstMarker; rw [h]

theorem markerSection_no_plain {t : List Char}
    (H : ∀ i, matchPlainAt (t.drop i) = none) :
    ∀ i, matchPlainAt ((markerSection t).drop i) = none := by
  intro i
  unfold markerSection
  cases h1 : firstIdx? finalRankingMarker t with
  | none =>
    rw [afterFirstMarker_of_none h1]
    cases h2 : firstIdx? finalRankingMarker t with
    | none => rw [takeUntilSub_of_none h2]; exact H i
    | some b =>
      rw [takeUntilSub_of_some h2]
      cases hw : matchPlainAt ((t.take b).drop i) with
      | none => rfl
      | some w =>
        rw [List.drop_take] at hw
        have := matchPlainAt_of_take hw
        rw [H i] at this
        exact Option.noConfusion this
  | some a =>
    rw [afterFirstMarker_of_some h1]
    cases h2 : firstIdx? finalRankingMarker (t.drop (a + finalRankingMarker.length)) with
    | none =>
      rw [takeUntilSub_of_none h2, List.drop_drop]
      exact H _
    | some b =>
      rw [takeUntilSub_of_some h2]
      cases hw : matchPlainAt (((t.drop (a + finalRankingMarker.length)).take b).drop i) with
      | none => rfl
      | some w =>
        rw [List.drop_take] at hw
        have := matchPlainAt_of_take hw
        rw [List.drop_drop] at this
        rw [H _] at this
        exact Option.noConfusion this

theorem markerSection_findall_nil {t : List Char} (hnil : findallPlain t = []) :
    findallPlain (markerSection t) = [] ∧ findallNumbered (markerSection t) = [] := by
  have H : ∀ i, matchPlainAt (t.drop i) = none := findallPlain_eq_nil_iff.mp hnil
  have Hs := markerSection_no_plain H
  refine ⟨findallPlain_eq_nil_iff.mpr Hs, findallNumbered_eq_nil_iff.mpr ?_⟩
  intro i
  cases hn : matchNumberedAt ((markerSection t).drop i) with
  | none => rfl
  | some w =>
    obtain ⟨j, hj⟩ := matchNumberedAt_plain_exists hn
    rw [List.drop_drop] at hj
    exact absurd (Hs (i + j)) hj

theorem parse_ranking_marker_cases {t : List Char}
    (h : containsSub finalRankingMarker t = true) :
    parse_ranking_from_text t =
      if (findallNumbered (markerSection t)).isEmpty then
        findallPlain (markerSection t)
      else (findallNumbered (markerSection t)).map extractLabel := by
  have hsec : (splitOnSep finalRankingMarker t).getD 1 [] = markerSection t :=
    splitOnSep_getD_one (by decide) h
  have hlen := splitOnSep_two_le h
  simp only [parse_ranking_from_text]
  rw [if_pos h, if_pos hlen, hsec]
  by_cases hn : (findallNumbered (markerSection t)).isEmpty
  · rw [if_neg (by simp [hn]), if_pos hn]
  · rw [if_pos hn, if_neg hn]

theorem parse_ranking_no_marker {t : List Char}
    (h : containsSub finalRankingMarker t = false) :
    parse_ranking_from_text t = findallPlain t := by
  simp only [parse_ranking_from_text]
  rw [if_neg (by simp [h])]

/-- C1: `parse_ranking_from_text` follows the three-step priority.  With the
marker present, the section examined is the text between the first marker
occurrence and the next one (`markerSection`); numbered matches win, plain
`Response <Letter>` occurrences are the fallback, and with the marker absent
the whole text is scanned.  The function is total by construction and an
input with no `Response <Letter>` occurrence yields `[]`. -/
theorem parse_ranking_from_text_priority (t : List Char) :
    (containsSub finalRankingMarker t = true →
      (¬ (findallNumbered (markerSection t)).isEmpty = true →
        parse_ranking_from_text t = (findallNumbered (markerSection t)).map extractLabel)
      ∧ ((findallNumbered (markerSection t)).isEmpty = true →
        parse_ranking_from_text t = findallPlain (markerSection t)))
    ∧ (containsSub finalRankingMarker t = false →
        parse_ranking_from_text t = findallPlain t)
    ∧ (findallPlain t = [] → parse_ranking_from_text t = []) := by
  refine ⟨fun h => ⟨fun hn => ?_, fun hn => ?_⟩, fun h => parse_ranking_no_marker h, fun h => ?_⟩
  · rw [parse_ranking_marker_cases h, if_neg (by simpa using hn)]
  · rw [parse_ranking_marker_cases h, if_pos hn]
  · cases hc : containsSub finalRankingMarker t with
    | false => rw [parse_ranking_no_marker hc, h]
    | true =>
      obtain ⟨hplain, hnum⟩ := markerSection_findall_nil h
      rw [parse_ranking_marker_cases hc, if_pos (by simp [hnum]), hplain]

theorem parse_ranking_from_text_priority_witness :
    parse_ranking_from_text (str "FINAL RANKING:\n1. Response B\n2. Response A\n") =
      (findallNumbered
        (markerSection (str "FINAL RANKING:\n1. Response B\n2. Response A\n"))).map
        extractLabel
    ∧ parse_ranking_from_text (str "Response C is good. Response A is ok.") =
        findallPlain (str "Response C is good. Response A is ok.")
    ∧ parse_ranking_from_text (str "no labels here at all") = [] :=
  ⟨((parse_ranking_from_text_priority _).1 (by decide)).1 (by decide),
   (parse_ranking_from_text_priority _).2.1 (by decide),
   (parse_ranking_from_text_priority _).2.2 (by decide)⟩

theorem parse_ranking_from_text_claim_counterexample :
    parse_ranking_from_text c1DoubleMarkerInput = []
    ∧ containsSub finalRankingMarker c1DoubleMarkerInput = true
    ∧ (findallNumbered (afterFirstMarker c1DoubleMarkerInput)).map extractLabel =
        [str "Response A"]
    ∧ ([] : List (List Char)) ≠ [str "Response A"] := by
  refine ⟨by decide, by decide, by decide, by decide⟩

/-- The spec's two worked parser examples. -/
theorem parse_ranking_spec_examples :
    parse_ranking_from_text (str "FINAL RANKING:\n1. Response B\n2. Response A\n") =
      [str "Response B", str "Response A"]
    ∧ parse_ranking_from_text (str "Response C is good. Response A is ok.") =
        [str "Response C", str "Response A"] := by
  refine ⟨by decide, by decide⟩

theorem startsWithL_iff {p : List Char} :
    ∀ {l : List Char}, startsWithL p l = true ↔ ∃ rest, l = p ++ rest := by
  induction p with
  | nil => intro l; simp [startsWithL]
  | cons c cs ih =>
    intro l
    cases l with
    | nil =>
      simp only [startsWithL]
      constructor
      · intro h; exact absurd h (by simp)
      · rintro ⟨rest, hrest⟩; exact absurd hrest (by simp)
    | cons a as =>
      simp only [startsWithL, Bool.and_eq_true, decide_eq_true_eq]
      constructor
      · rintro ⟨rfl, h⟩
        obtain ⟨rest, rfl⟩ := ih.mp h
        exact ⟨rest, rfl⟩
      · rintro ⟨rest, hrest⟩
        simp only [List.cons_append, List.cons.injEq] at hrest
        exact ⟨hrest.1.symm, ih.mpr ⟨rest, hrest.2⟩⟩

/-- C4 (amended): the routing rule selects the Anthropic-family adapter
exactly when the model name begins with `claude`, the Google-family adapter
exactly when it does not begin with `claude` and begins with `gemini`
(a prefix test, not a substring test), and the OpenAI-family adapter in
every other case. -/
theorem get_provider_routing (m : String) :
    (get_provider m = "anthropic" ↔ ∃ rest, m.data = str "claude" ++ rest)
    ∧ (get_provider m = "google" ↔
        (¬ ∃ rest, m.data = str "claude" ++ rest) ∧ ∃ rest, m.data = str "gemini" ++ rest)
    ∧ (get_provider m = "openai" ↔
        (¬ ∃ rest, m.data = str "claude" ++ rest)
          ∧ ¬ ∃ rest, m.data = str "gemini" ++ rest) := by
  by_cases hc : startsWithL (str "claude") m.data = true <;>
    by_cases hg : startsWithL (str "gemini") m.data = true <;>
      simp [get_provider, hc, hg, ← startsWithL_iff]

/-- A model identifier that contains `gemini` without starting with it is
routed to the OpenAI adapter, falsifying the claim's "contains" wording. -/
theorem get_provider_contains_gemini_counterexample :
    get_provider "x-gemini" = "openai"
    ∧ containsSub (str "gemini") (str "x-gemini") = true
    ∧ ("openai" : String) ≠ "google" :=
  ⟨by decide, by decide, by decide⟩

/-- C6: `calculate_cost` charges `input_tokens/1e6 * price_in +
output_tokens/1e6 * price_out` from the static pricing table, and returns 0
for an unknown model or an empty usage dict; the `gpt-4.1` example evaluates
to 10 USD. -/
theorem calculate_cost_spec :
    (∀ (model : String) (usage : List (String × Nat)) (input_price output_price : ℚ)
        (tin tout : Nat),
      dictGet? MODEL_PRICING model = some (input_price, output_price) →
      usage ≠ [] →
      dictGet? usage "input_tokens" = some tin →
      dictGet? usage "output_tokens" = some tout →
      calculate_cost model usage =
        (tin : ℚ) / 1000000 * input_price + (tout : ℚ) / 1000000 * output_price)
    ∧ (∀ (model : String) (usage : List (String × Nat)),
        dictGet? MODEL_PRICING model = none → calculate_cost model usage = 0)
    ∧ (∀ model : String, calculate_cost model [] = 0)
    ∧ calculate_cost "gpt-4.1" [("input_tokens", 1000000), ("output_tokens", 1000000)] = 10 := by
  refine ⟨?_, ?_, ?_, ?_⟩
  · intro model usage input_price output_price tin tout hp hu hin hout
    unfold calculate_cost
    rw [if_neg (by simpa [List.isEmpty_iff] using hu), hp, hin, hout]
    simp
  · intro model usage hp
    unfold calculate_cost
    by_cases h : usage.isEmpty
    · rw [if_pos h]
    · rw [if_neg h, hp]
  · intro model
    rfl
  · simp [calculate_cost, dictGet?, MODEL_PRICING]
    norm_num

theorem calculate_cost_spec_witness :
    calculate_cost "claude-opus-4-6" [("input_tokens", 2000000), ("output_tokens", 1000000)] =
      ((2000000 : Nat) : ℚ) / 1000000 * 5.00 + ((1000000 : Nat) : ℚ) / 1000000 * 25.00 :=
  calculate_cost_spec.1 "claude-opus-4-6" _ 5.00 25.00 2000000 1000000
    (by simp [dictGet?, MODEL_PRICING]) (by decide) (by decide) (by decide)

/-- C7: at the adapter boundary every failure mode is an Abstention, never
an exception (the embedding is a total function into `Option`): a missing
client yields `none` with no provider attempt, a caught provider exception
yields `none`, a timeout yields `none`, and a `some` result can only come
from a successful, non-timed-out call on a configured provider. -/
theorem query_model_abstention (env : ProviderEnv) (model : String)
    (outcome : ProviderOutcome) (timedOut : Bool) :
    (configuredFor env (get_provider model) = false →
      query_model env model outcome timedOut = (none, false))
    ∧ (∀ msg, outcome = ProviderOutcome.failure msg →
        (query_model env model outcome timedOut).1 = none)
    ∧ (timedOut = true → (query_model env model outcome timedOut).1 = none)
    ∧ (∀ r, (query_model env model outcome timedOut).1 = some r →
        outcome = ProviderOutcome.success r ∧ timedOut = false
          ∧ configuredFor env (get_provider model) = true) := by
  unfold query_model adapterCall
  cases hcfg : configuredFor env (get_provider model) <;>
    cases outcome <;> cases timedOut <;> simp

theorem query_model_abstention_witness :
    (query_model ⟨true, true, true⟩ "gpt-4.1"
        (ProviderOutcome.failure (str "connection reset")) false).1 = none
    ∧ query_model ⟨false, false, false⟩ "gpt-4.1"
        (ProviderOutcome.success ⟨[], [], []⟩) false = (none, false) :=
  ⟨(query_model_abstention _ _ _ _).2.1 (str "connection reset") rfl,
   (query_model_abstention _ _ _ _).1 (by decide)⟩

/-- C10: `generate_conversation_title` is total over its model-call
outcomes: abstention yields the fixed `"New Conversation"`, otherwise the
content is stripped of surrounding whitespace, then of surrounding quote
characters, and truncated to the first 47 characters plus `"..."` when the
stripped title exceeds 50 characters; the returned title never exceeds 50
characters. -/
theorem generate_conversation_title_spec :
    (generate_conversation_title none = str "New Conversation")
    ∧ (∀ r : ModelResponse,
        ((pyStrip isQuoteC (pyStrip isSpaceC r.content)).length ≤ 50 →
          generate_conversation_title (some r) =
            pyStrip isQuoteC (pyStrip isSpaceC r.content))
        ∧ (50 < (pyStrip isQuoteC (pyStrip isSpaceC r.content)).length →
          generate_conversation_title (some r) =
            (pyStrip isQuoteC (pyStrip isSpaceC r.content)).take 47 ++ str "..."))
    ∧ (∀ response, (generate_conversation_title response).length ≤ 50) := by
  refine ⟨rfl, fun r => ⟨fun h => ?_, fun h => ?_⟩, fun response => ?_⟩
  · simp only [generate_conversation_title]
    rw [if_neg (by omega)]
  · simp only [generate_conversation_title]
    rw [if_pos h]
  · cases response with
    | none => decide
    | some r =>
      simp only [generate_conversation_title]
      by_cases h : 50 < (pyStrip isQuoteC (pyStrip isSpaceC r.content)).length
      · rw [if_pos h]
        simp only [List.length_append, List.length_take]
        have : min 47 (pyStrip isQuoteC (pyStrip isSpaceC r.content)).length = 47 := by omega
        rw [this]
        decide
      · rw [if_neg h]
        omega

theorem generate_conversation_title_spec_witness :
    generate_conversation_title
        (some ⟨str "  \"A significantly overlong generated conversation title from the model\"  ", [], []⟩) =
      (pyStrip isQuoteC (pyStrip isSpaceC
        (str "  \"A significantly overlong generated conversation title from the model\"  "))).take 47
        ++ str "..."
    ∧ generate_conversation_title
        (some ⟨str " \"Short title\" ", [], []⟩) =
      pyStrip isQuoteC (pyStrip isSpaceC (str " \"Short title\" ")) :=
  ⟨(generate_conversation_title_spec.2.1 _).2 (by decide),
   (generate_conversation_title_spec.2.1 _).1 (by decide)⟩

theorem openaiToolLoop_all_tools (replies : Nat → OAResponse)
    (exec : String → String → List Char) :
    ∀ (fuel k : Nat) (msgs : List OAMessage) (acc : List ToolCallRec),
      (∀ j, j < fuel → (replies (k + j)).message.tool_calls.isEmpty = false) →
      (openaiToolLoop replies exec true fuel k msgs acc).2.length = fuel + 1
      ∧ (∀ i, i < fuel →
          ((openaiToolLoop replies exec true fuel k msgs acc).2.getD i default).withTools = true)
      ∧ ((openaiToolLoop replies exec true fuel k msgs acc).2.getD fuel default).withTools = false
      ∧ (openaiToolLoop replies exec true fuel k msgs acc).1.content =
          (replies (k + fuel)).message.content := by
  intro fuel
  induction fuel with
  | zero =>
    intro k msgs acc _
    refine ⟨rfl, fun i hi => absurd hi (by omega), rfl, by simp [openaiToolLoop]⟩
  | succ n ih =>
    intro k msgs acc h
    have h0 : (replies k).message.tool_calls.isEmpty = false := by
      simpa using h 0 (by omega)
    have hrec := ih (k + 1)
      (msgs ++ OAMessage.assistantMsg (replies k).message ::
        (replies k).message.tool_calls.map fun tc =>
          OAMessage.toolResult tc.id (exec tc.name tc.arguments))
      (acc ++ (replies k).message.tool_calls.map fun tc =>
        ToolCallRec.mk tc.name tc.arguments ((exec tc.name tc.arguments).take 2000))
      (fun j hj => by
        have := h (j + 1) (by omega)
        rwa [show k + (j + 1) = k + 1 + j by omega] at this)
    have hstep :
        openaiToolLoop replies exec true (n + 1) k msgs acc =
          ((openaiToolLoop replies exec true n (k + 1)
              (msgs ++ OAMessage.assistantMsg (replies k).message ::
                (replies k).message.tool_calls.map fun tc =>
                  OAMessage.toolResult tc.id (exec tc.name tc.arguments))
              (acc ++ (replies k).message.tool_calls.map fun tc =>
                ToolCallRec.mk tc.name tc.arguments ((exec tc.name tc.arguments).take 2000))).1,
            OARequest.mk true msgs ::
              (openaiToolLoop replies exec true n (k + 1)
                (msgs ++ OAMessage.assistantMsg (replies k).message ::
                  (replies k).message.tool_calls.map fun tc =>
                    OAMessage.toolResult tc.id (exec tc.name tc.arguments))
                (acc ++ (replies k).message.tool_calls.map fun tc =>
                  ToolCallRec.mk tc.name tc.arguments ((exec tc.name tc.arguments).take 2000))).2) := by
      simp only [openaiToolLoop, h0]
      simp
    rw [hstep]
    refine ⟨by simpa using hrec.1, fun i hi => ?_, ?_, ?_⟩
    · cases i with
      | zero => rfl
      | succ i' =>
        rw [List.getD_cons_succ]
        exact hrec.2.1 i' (by omega)
    · rw [List.getD_cons_succ]
      exact hrec.2.2.1
    · rw [show k + (n + 1) = k + 1 + n by omega]
      exact hrec.2.2.2

/-- C3 (amended): with tool schemas attached and a provider that requests a
tool call in every reply, the loop performs exactly `MAX_TOOL_ROUNDS = 5`
tool rounds (requests 1–5, all with tool schemas) and then issues one final
6th request without tool schemas, returning that final reply's content as
terminal. -/
theorem openai_tool_loop_exhaustion (replies : Nat → OAResponse)
    (exec : String → String → List Char) (messages : List OAMessage)
    (system_prompt : Option (List Char))
    (h : ∀ j, j < MAX_TOOL_ROUNDS → (replies j).message.tool_calls.isEmpty = false) :
    (_query_openai replies exec messages system_prompt true).2.length = MAX_TOOL_ROUNDS + 1
    ∧ (∀ i, i < MAX_TOOL_ROUNDS →
        ((_query_openai replies exec messages system_prompt true).2.getD i default).withTools
          = true)
    ∧ ((_query_openai replies exec messages system_prompt true).2.getD MAX_TOOL_ROUNDS
        default).withTools = false
    ∧ (_query_openai replies exec messages system_prompt true).1.content =
        (replies MAX_TOOL_ROUNDS).message.content := by
  unfold _query_openai
  have := openaiToolLoop_all_tools replies exec MAX_TOOL_ROUNDS 0
    ((match system_prompt with
      | some s => [OAMessage.system s]
      | none => []) ++ messages) []
    (fun j hj => by simpa using h j hj)
  simpa using this

theorem openai_tool_loop_exhaustion_witness :
    (_query_openai alwaysToolReplies (fun _ _ => []) [] none true).2.length =
      MAX_TOOL_ROUNDS + 1 :=
  (openai_tool_loop_exhaustion alwaysToolReplies (fun _ _ => []) [] none (by decide)).1

/-- Against a provider whose every reply requests a tool, `_query_openai`
issues 6 requests, the 5th request still carries tool schemas, and the
returned content is the 6th reply's — falsifying "terminates after exactly
5 rounds, and the 5th (final) request is issued without tool schemas". -/
theorem openai_tool_loop_claim_counterexample :
    (_query_openai alwaysToolReplies (fun _ _ => []) [] none true).2.length = 6
    ∧ ((_query_openai alwaysToolReplies (fun _ _ => []) [] none true).2.getD 4
        default).withTools = true
    ∧ (_query_openai alwaysToolReplies (fun _ _ => []) [] none true).1.content = str "5"
    ∧ (6 : Nat) ≠ 5 :=
  ⟨by decide, by decide, by decide, by decide⟩

/-- C2: when Stage 1 yields zero successful responses, `run_full_council`
returns the fixed error tuple `([], [], {model: "error", response: "All
models failed to respond. Please try again."}, {})` and its call log is
exactly the Stage 1 fan-out — no Stage 2, Stage 3 or Stage 4 model call is
issued. -/
theorem run_full_council_zero_successes (o : Oracle) (user_query : List Char)
    (council_models : List String) (chairman_model : String)
    (system_prompt : Option (List Char))
    (h : (stage1_collect_responses o user_query council_models system_prompt
      none [] false).1 = []) :
    run_full_council o user_query council_models chairman_model system_prompt =
      (([], [],
        { model := "error",
          response := str "All models failed to respond. Please try again.",
          usage := none, cost := none }, none),
       (stage1_collect_responses o user_query council_models system_prompt
         none [] false).2)
    ∧ (run_full_council o user_query council_models chairman_model system_prompt).2 =
        council_models.map fun m =>
          ChatCall.mk m [⟨"user", user_query, []⟩] system_prompt false := by
  have hempty : (stage1_collect_responses o user_query council_models system_prompt
      none [] false).1.isEmpty = true := by
    rw [h]; rfl
  constructor
  · unfold run_full_council
    rw [if_pos hempty]
  · unfold run_full_council
    rw [if_pos hempty]
    rfl

theorem run_full_council_zero_successes_witness :
    (run_full_council (fun _ => none) (str "hello") ["gpt-4.1", "o3"] "o3" none).2 =
      ["gpt-4.1", "o3"].map fun m =>
        ChatCall.mk m [⟨"user", str "hello", []⟩] none false :=
  (run_full_council_zero_successes (fun _ => none) (str "hello") ["gpt-4.1", "o3"]
    "o3" none (by decide)).2

theorem dictGet?_cons {α β : Type _} [DecidableEq α] (p : α × β)
    (rest : List (α × β)) (k : α) :
    dictGet? (p :: rest) k = if p.1 = k then some p.2 else dictGet? rest k := by
  cases p
  rfl

theorem dictInsert_cons {α β : Type _} [DecidableEq α] (p : α × β)
    (rest : List (α × β)) (k : α) (v : β) :
    dictInsert (p :: rest) k v =
      if p.1 = k then (p.1, v) :: rest else p :: dictInsert rest k v := by
  cases p
  rfl

theorem dictGet?_append_of_none {α β : Type _} [DecidableEq α]
    {d : List (α × β)} {k : α} (e : List (α × β)) (h : dictGet? d k = none) :
    dictGet? (d ++ e) k = dictGet? e k := by
  induction d with
  | nil => rfl
  | cons p rest ih =>
    rw [dictGet?_cons] at h
    rw [List.cons_append, dictGet?_cons]
    by_cases hk : p.1 = k
    · rw [if_pos hk] at h; exact absurd h (by simp)
    · rw [if_neg hk] at h
      rw [if_neg hk]
      exact ih h

theorem dictInsert_fresh {α β : Type _} [DecidableEq α]
    {d : List (α × β)} {k : α} (v : β) (h : dictGet? d k = none) :
    dictInsert d k v = d ++ [(k, v)] := by
  induction d with
  | nil => rfl
  | cons p rest ih =>
    rw [dictGet?_cons] at h
    rw [dictInsert_cons]
    by_cases hk : p.1 = k
    · rw [if_pos hk] at h; exact absurd h (by simp)
    · rw [if_neg hk] at h
      rw [if_neg hk, ih h]
      simp

theorem foldl_dictInsert_fresh {α β : Type _} [DecidableEq α] :
    ∀ (ps : List (α × β)) (d : List (α × β)),
      (∀ p ∈ ps, dictGet? d p.1 = none) → (ps.map Prod.fst).Nodup →
        ps.foldl (fun d p => dictInsert d p.1 p.2) d = d ++ ps := by
  intro ps
  induction ps with
  | nil => intro d _ _; simp
  | cons p rest ih =>
    intro d hfresh hnodup
    have hp : dictGet? d p.1 = none := hfresh p (by simp)
    have hstep : dictInsert d p.1 p.2 = d ++ [p] := by
      rw [dictInsert_fresh p.2 hp]
    simp only [List.foldl_cons, hstep]
    rw [ih (d ++ [p]) ?_ ?_]
    · simp
    · intro q hq
      rw [dictGet?_append_of_none [p] (hfresh q (by simp [hq]))]
      have hne : p.1 ≠ q.1 := by
        simp only [List.map_cons, List.nodup_cons] at hnodup
        intro heq
        exact hnodup.1 (heq ▸ List.mem_map_of_mem Prod.fst hq)
      unfold dictGet?
      rw [if_neg hne]
      rfl
    · simpa using hnodup.of_cons

theorem stage2Labels_length (n : Nat) : (stage2Labels n).length = n := by
  simp [stage2Labels]

theorem stage2Labels_nodup_of_le {n : Nat} (h : n ≤ 26) : (stage2Labels n).Nodup := by
  interval_cases n <;> decide

theorem stage2Labels_upper_of_le {n : Nat} (h : n ≤ 26) :
    ∀ c ∈ stage2Labels n, isUpperAZ c = true := by
  interval_cases n <;> decide

theorem getElem?_zip_some {γ δ : Type _} :
    ∀ {l1 : List γ} {l2 : List δ} {i : Nat} {a : γ} {b : δ},
      l1[i]? = some a → l2[i]? = some b → (l1.zip l2)[i]? = some (a, b) := by
  intro l1
  induction l1 with
  | nil => intro l2 i a b h; simp at h
  | cons x xs ih =>
    intro l2 i a b h1 h2
    cases l2 with
    | nil => simp at h2
    | cons y ys =>
      cases i with
      | zero =>
        simp only [List.getElem?_cons_zero, Option.some.injEq] at h1 h2
        simp [List.zip_cons_cons, h1, h2]
      | succ j =>
        simp only [List.getElem?_cons_succ] at h1 h2
        simpa [List.zip_cons_cons] using ih h1 h2

theorem responseKey_inj {c c' : Char}
    (h : str "Response " ++ [c] = str "Response " ++ [c']) : c = c' := by
  have := congrArg (List.drop (str "Response ").length) h
  rw [List.drop_left, List.drop_left] at this
  simpa using this

theorem label_to_model_map_eq (stage1_results : List Stage1Result)
    (hn : stage1_results.length ≤ 26) :
    label_to_model_map stage1_results =
      ((stage2Labels stage1_results.length).zip stage1_results).map fun lr =>
        (str "Response " ++ [lr.1], lr.2.model) := by
  unfold label_to_model_map
  rw [show ((stage2Labels stage1_results.length).zip stage1_results).foldl
        (fun d lr => dictInsert d (str "Response " ++ [lr.1]) lr.2.model) []
      = (((stage2Labels stage1_results.length).zip stage1_results).map fun lr =>
          (str "Response " ++ [lr.1], lr.2.model)).foldl
            (fun d p => dictInsert d p.1 p.2) [] by
    rw [List.foldl_map]]
  rw [foldl_dictInsert_fresh _ [] (fun p _ => rfl) ?_]
  · simp
  · have hfst : ((((stage2Labels stage1_results.length).zip stage1_results).map fun lr =>
        (str "Response " ++ [lr.1], lr.2.model)).map Prod.fst)
        = ((stage2Labels stage1_results.length).zip stage1_results).map fun lr =>
            str "Response " ++ [lr.1] := by
      simp
    rw [hfst]
    have hz : (((stage2Labels stage1_results.length).zip stage1_results).map fun lr =>
        str "Response " ++ [lr.1])
        = (((stage2Labels stage1_results.length).zip stage1_results).map Prod.fst).map
            fun c => str "Response " ++ [c] := by
      simp [Function.comp]
    rw [hz, List.map_fst_zip _ _ (by rw [stage2Labels_length])]
    exact (stage2Labels_nodup_of_le hn).map_on
      (fun x _ y _ h => responseKey_inj h)

/-- C8 (amended): for `N ≤ 26` successful Stage 1 responses (and distinct
Stage 1 model names, which the Stage 1 dict construction guarantees),
Stage 2 assigns exactly `N` distinct single-uppercase-letter labels in
encounter order, and `label_to_model` has exactly one entry per Stage 1
success — distinct keys `"Response <chr(65+i)>"`, distinct values, no gaps
and no duplicates.  For `N > 26` the labels leave the uppercase range. -/
theorem stage2_label_map_bijection (stage1_results : List Stage1Result)
    (hmodels : (stage1_results.map Stage1Result.model).Nodup)
    (hn : stage1_results.length ≤ 26) :
    (label_to_model_map stage1_results).length = stage1_results.length
    ∧ ((label_to_model_map stage1_results).map Prod.fst).Nodup
    ∧ ((label_to_model_map stage1_results).map Prod.snd).Nodup
    ∧ (∀ (i : Nat) (r : Stage1Result), stage1_results[i]? = some r →
        (label_to_model_map stage1_results)[i]? =
          some (str "Response " ++ [Char.ofNat (65 + i)], r.model))
    ∧ (∀ c ∈ stage2Labels stage1_results.length, isUpperAZ c = true) := by
  rw [label_to_model_map_eq stage1_results hn]
  have hlen : (stage2Labels stage1_results.length).length = stage1_results.length :=
    stage2Labels_length _
  refine ⟨?_, ?_, ?_, ?_, stage2Labels_upper_of_le hn⟩
  · rw [List.length_map, List.length_zip, hlen]
    omega
  · have hz : ((((stage2Labels stage1_results.length).zip stage1_results).map fun lr =>
        (str "Response " ++ [lr.1], lr.2.model)).map Prod.fst)
        = (((stage2Labels stage1_results.length).zip stage1_results).map Prod.fst).map
            fun c => str "Response " ++ [c] := by
      simp [Function.comp]
    rw [hz, List.map_fst_zip _ _ (le_of_eq hlen)]
    exact (stage2Labels_nodup_of_le hn).map_on (fun x _ y _ h => responseKey_inj h)
  · have hz : ((((stage2Labels stage1_results.length).zip stage1_results).map fun lr =>
        (str "Response " ++ [lr.1], lr.2.model)).map Prod.snd)
        = (((stage2Labels stage1_results.length).zip stage1_results).map Prod.snd).map
            Stage1Result.model := by
      simp [Function.comp]
    rw [hz, List.map_snd_zip _ _ (le_of_eq hlen.symm)]
    exact hmodels
  · intro i r hr
    have hi : i < stage1_results.length := by
      rcases List.getElem?_eq_some.mp hr with ⟨h, _⟩
      exact h
    have hlab : (stage2Labels stage1_results.length)[i]? = some (Char.ofNat (65 + i)) := by
      unfold stage2Labels
      rw [List.getElem?_map, List.getElem?_range hi]
      rfl
    rw [List.getElem?_map, getElem?_zip_some hlab hr]
    rfl

theorem stage2_label_map_bijection_witness :
    (label_to_model_map [⟨"m1", [], [], 0, []⟩, ⟨"m2", [], [], 0, []⟩]).length = 2
    ∧ (label_to_model_map [⟨"m1", [], [], 0, []⟩, ⟨"m2", [], [], 0, []⟩])[1]? =
        some (str "Response B", "m2") := by
  have h := stage2_label_map_bijection [⟨"m1", [], [], 0, []⟩, ⟨"m2", [], [], 0, []⟩]
    (by decide) (by decide)
  exact ⟨h.1, by
    have := h.2.2.2.1 1 ⟨"m2", [], [], 0, []⟩ (by decide)
    simpa using this⟩

/-- With 27 Stage 1 successes the 27th label is `chr(91) = '['`, which is
not an uppercase letter, falsifying the claim's "single-uppercase-letter
labels A, B, C, ..." for every N. -/
theorem stage2_label_claim_counterexample :
    (c8Results.map Stage1Result.model).Nodup
    ∧ (label_to_model_map c8Results)[26]? = some (str "Response [", "m26")
    ∧ isUpperAZ '[' = false :=
  ⟨by decide, by decide, by decide⟩

theorem appendPosition_cons (k₀ : String) (ps₀ : List Nat) (rest : List (String × List Nat))
    (k : String) (p : Nat) :
    appendPosition ((k₀, ps₀) :: rest) k p =
      if k₀ = k then (k₀, ps₀ ++ [p]) :: rest else (k₀, ps₀) :: appendPosition rest k p := rfl

theorem dictGet?_appendPosition (k : String) (p : Nat) :
    ∀ (mp : List (String × List Nat)) (k' : String),
      dictGet? (appendPosition mp k p) k' =
        if k' = k then some ((dictGet? mp k).getD [] ++ [p]) else dictGet? mp k' := by
  intro mp
  induction mp with
  | nil =>
    intro k'
    by_cases h : k' = k
    · subst h
      simp [appendPosition, dictGet?_cons, dictGet?]
    · have h' : ¬(k = k') := fun e => h e.symm
      simp [appendPosition, dictGet?_cons, dictGet?, h, h']
  | cons q rest ih =>
    intro k'
    obtain ⟨k₀, ps₀⟩ := q
    rw [appendPosition_cons]
    by_cases h₀ : k₀ = k
    · rw [if_pos h₀]
      by_cases hk' : k' = k
      · subst hk'
        rw [if_pos rfl, dictGet?_cons, dictGet?_cons, if_pos h₀, if_pos h₀]
        simp
      · rw [if_neg hk', dictGet?_cons, dictGet?_cons]
        have h₀' : ¬(k₀ = k') := fun e => hk' (e.symm.trans h₀)
        rw [if_neg h₀', if_neg h₀']
    · rw [if_neg h₀]
      by_cases hk' : k' = k
      · subst hk'
        rw [if_pos rfl, dictGet?_cons, dictGet?_cons, if_neg h₀, if_neg h₀, ih, if_pos rfl]
      · rw [if_neg hk', dictGet?_cons, dictGet?_cons]
        by_cases h₀' : k₀ = k'
        · rw [if_pos h₀', if_pos h₀']
        · rw [if_neg h₀', if_neg h₀', ih, if_neg hk']

theorem keys_appendPosition (k : String) (p : Nat) :
    ∀ mp : List (String × List Nat),
      (appendPosition mp k p).map Prod.fst =
        if k ∈ mp.map Prod.fst then mp.map Prod.fst else mp.map Prod.fst ++ [k] := by
  intro mp
  induction mp with
  | nil => simp [appendPosition]
  | cons q rest ih =>
    obtain ⟨k₀, ps₀⟩ := q
    rw [appendPosition_cons]
    by_cases h₀ : k₀ = k
    · rw [if_pos h₀]
      subst h₀
      simp
    · rw [if_neg h₀]
      simp only [List.map_cons]
      rw [ih]
      by_cases hmem : k ∈ rest.map Prod.fst
      · rw [if_pos hmem, if_pos (by simp [hmem])]
      · rw [if_neg hmem,
          if_neg (by simp only [List.mem_cons]; rintro (rfl | hk) <;> simp_all)]
        simp

theorem mem_keys_appendPosition {mp : List (String × List Nat)} {k : String}
    {p : Nat} {k' : String} :
    k' ∈ (appendPosition mp k p).map Prod.fst ↔ k' ∈ mp.map Prod.fst ∨ k' = k := by
  rw [keys_appendPosition]
  by_cases hmem : k ∈ mp.map Prod.fst
  · rw [if_pos hmem]
    constructor
    · exact Or.inl
    · rintro (h | rfl)
      · exact h
      · exact hmem
  · rw [if_neg hmem]
    simp

theorem keys_appendPosition_nodup {mp : List (String × List Nat)} {k : String}
    {p : Nat} (h : (mp.map Prod.fst).Nodup) :
    ((appendPosition mp k p).map Prod.fst).Nodup := by
  rw [keys_appendPosition]
  by_cases hmem : k ∈ mp.map Prod.fst
  · rwa [if_pos hmem]
  · rw [if_neg hmem]
    refine List.Nodup.append h (List.nodup_singleton _) ?_
    intro a ha hak
    simp only [List.mem_singleton] at hak
    subst hak
    exact hmem ha

theorem foldl_aggStep_getD (ltm : List (List Char × String)) :
    ∀ (evs : List (Nat × List Char)) (mp : List (String × List Nat)) (k : String),
      (dictGet? (evs.foldl (aggStep ltm) mp) k).getD [] =
        (dictGet? mp k).getD [] ++ resolvedPositions ltm evs k := by
  intro evs
  induction evs with
  | nil => intro mp k; simp [resolvedPositions]
  | cons pl rest ih =>
    intro mp k
    rw [List.foldl_cons]
    cases hres : dictGet? ltm pl.2 with
    | none =>
      rw [show aggStep ltm mp pl = mp by simp [aggStep, hres], ih]
      congr 1
      simp [resolvedPositions, hres]
    | some m =>
      rw [show aggStep ltm mp pl = appendPosition mp m pl.1 by simp [aggStep, hres], ih]
      by_cases hk : m = k
      · subst hk
        rw [dictGet?_appendPosition, if_pos rfl]
        simp [resolvedPositions, hres]
      · rw [dictGet?_appendPosition, if_neg (fun e => hk e.symm)]
        congr 1
        simp [resolvedPositions, hres, hk]

theorem foldl_aggStep_mem (ltm : List (List Char × String)) :
    ∀ (evs : List (Nat × List Char)) (mp : List (String × List Nat)) (k : String),
      k ∈ (evs.foldl (aggStep ltm) mp).map Prod.fst ↔
        k ∈ mp.map Prod.fst ∨ k ∈ resolvedModels ltm evs := by
  intro evs
  induction evs with
  | nil => intro mp k; simp [resolvedModels]
  | cons pl rest ih =>
    intro mp k
    rw [List.foldl_cons]
    cases hres : dictGet? ltm pl.2 with
    | none =>
      rw [show aggStep ltm mp pl = mp by simp [aggStep, hres], ih]
      simp [resolvedModels, hres]
    | some m =>
      rw [show aggStep ltm mp pl = appendPosition mp m pl.1 by simp [aggStep, hres], ih]
      simp only [resolvedModels, List.filterMap_cons, hres]
      rw [mem_keys_appendPosition]
      simp only [List.mem_cons]
      tauto

theorem foldl_aggStep_nodup (ltm : List (List Char × String)) :
    ∀ (evs : List (Nat × List Char)) (mp : List (String × List Nat)),
      (mp.map Prod.fst).Nodup → ((evs.foldl (aggStep ltm) mp).map Prod.fst).Nodup := by
  intro evs
  induction evs with
  | nil => intro mp h; exact h
  | cons pl rest ih =>
    intro mp h
    rw [List.foldl_cons]
    cases hres : dictGet? ltm pl.2 with
    | none =>
      rw [show aggStep ltm mp pl = mp by simp [aggStep, hres]]
      exact ih mp h
    | some m =>
      rw [show aggStep ltm mp pl = appendPosition mp m pl.1 by simp [aggStep, hres]]
      exact ih _ (keys_appendPosition_nodup h)

theorem resolvedModels_mem_iff (ltm : List (List Char × String)) :
    ∀ (evs : List (Nat × List Char)) (k : String),
      k ∈ resolvedModels ltm evs ↔ resolvedPositions ltm evs k ≠ [] := by
  intro evs
  induction evs with
  | nil => intro k; simp [resolvedModels, resolvedPositions]
  | cons pl rest ih =>
    intro k
    cases hres : dictGet? ltm pl.2 with
    | none =>
      simp only [resolvedModels, resolvedPositions, List.filterMap_cons, hres]
      exact ih k
    | some m =>
      by_cases hk : m = k
      · subst hk
        simp [resolvedModels, resolvedPositions, List.filterMap_cons, hres]
      · simp only [resolvedModels, resolvedPositions, List.filterMap_cons, hres, if_neg hk,
          List.mem_cons]
        constructor
        · rintro (rfl | hmem)
          · exact absurd rfl hk
          · exact ih k |>.mp hmem
        · intro hne
          exact Or.inr (ih k |>.mpr hne)

theorem assoc_eq_keys_map :
    ∀ mp : List (String × List Nat), (mp.map Prod.fst).Nodup →
      mp = (mp.map Prod.fst).map fun k => (k, (dictGet? mp k).getD []) := by
  intro mp
  induction mp with
  | nil => intro _; rfl
  | cons q rest ih =>
    intro h
    obtain ⟨k₀, v₀⟩ := q
    simp only [List.map_cons]
    have hk₀ : k₀ ∉ rest.map Prod.fst := by
      simp only [List.map_cons, List.nodup_cons] at h
      exact h.1
    have hrest : (rest.map Prod.fst).Nodup := by
      simp only [List.map_cons, List.nodup_cons] at h
      exact h.2
    congr 1
    · rw [dictGet?_cons]
      simp
    · have hcongr : ∀ k ∈ rest.map Prod.fst,
          (k, (dictGet? ((k₀, v₀) :: rest) k).getD []) =
            (k, (dictGet? rest k).getD []) := by
        intro k hk
        rw [dictGet?_cons, if_neg (fun e => hk₀ ((show k₀ = k from e).symm ▸ hk))]
      rw [List.map_congr_left hcongr]
      exact ih hrest

theorem filterMap_eq_map_of_forall_some {γ δ : Type _} {f : γ → Option δ} {g : γ → δ} :
    ∀ {l : List γ}, (∀ x ∈ l, f x = some (g x)) → l.filterMap f = l.map g := by
  intro l
  induction l with
  | nil => intro _; rfl
  | cons x xs ih =>
    intro h
    rw [List.filterMap_cons, h x (by simp), List.map_cons,
      ih fun y hy => h y (by simp [hy])]

theorem calculate_aggregate_rankings_eq (l : List Stage2Result)
    (ltm : List (List Char × String)) :
    calculate_aggregate_rankings l ltm =
      List.insertionSort (fun a b => a.average_rank ≤ b.average_rank)
        ((aggModelKeys ltm l).map fun k =>
          aggEntryOf k (resolvedPositions ltm (aggEvents l) k)) := by
  have hfold :
      l.foldl (fun mp ranking =>
        (enumFrom 1 (parse_ranking_from_text ranking.ranking)).foldl (aggStep ltm) mp) []
      = (aggEvents l).foldl (aggStep ltm) [] := by
    unfold aggEvents
    rw [List.foldl_flatten, List.foldl_map]
  show List.insertionSort (fun a b : AggregateEntry => a.average_rank ≤ b.average_rank)
      ((l.foldl (fun mp ranking =>
          (enumFrom 1 (parse_ranking_from_text ranking.ranking)).foldl (aggStep ltm) mp)
        ([] : List (String × List Nat))).filterMap fun kv =>
        if kv.2.isEmpty then none
        else some { model := kv.1,
                    average_rank := pyRound ((kv.2.sum : ℚ) / (kv.2.length : ℚ)) 2,
                    rankings_count := kv.2.length }) =
    List.insertionSort (fun a b : AggregateEntry => a.average_rank ≤ b.average_rank)
      ((aggModelKeys ltm l).map fun k =>
        aggEntryOf k (resolvedPositions ltm (aggEvents l) k))
  rw [hfold]
  have hnodup : (((aggEvents l).foldl (aggStep ltm) []).map Prod.fst).Nodup :=
    foldl_aggStep_nodup ltm (aggEvents l) [] (by simp)
  have hlook : ∀ k, (dictGet? ((aggEvents l).foldl (aggStep ltm) []) k).getD []
      = resolvedPositions ltm (aggEvents l) k := by
    intro k
    rw [foldl_aggStep_getD]
    simp [dictGet?]
  have hne : ∀ k ∈ ((aggEvents l).foldl (aggStep ltm) []).map Prod.fst,
      (resolvedPositions ltm (aggEvents l) k).isEmpty = false := by
    intro k hk
    have hmem := (foldl_aggStep_mem ltm (aggEvents l) [] k).mp hk
    simp only [List.map_nil, List.not_mem_nil, false_or] at hmem
    have := (resolvedModels_mem_iff ltm (aggEvents l) k).mp hmem
    simpa [List.isEmpty_iff] using this
  have hsome : ∀ k ∈ ((aggEvents l).foldl (aggStep ltm) []).map Prod.fst,
      ((fun kv : String × List Nat =>
          if kv.2.isEmpty then none
          else some ({ model := kv.1,
                       average_rank := pyRound ((kv.2.sum : ℚ) / (kv.2.length : ℚ)) 2,
                       rankings_count := kv.2.length } : AggregateEntry))
        ∘ fun k => (k, (dictGet? ((aggEvents l).foldl (aggStep ltm) []) k).getD [])) k
        = some (aggEntryOf k (resolvedPositions ltm (aggEvents l) k)) := by
    intro k hk
    simp only [Function.comp_apply]
    rw [hlook k, if_neg (by rw [hne k hk]; simp)]
    rfl
  conv_lhs => rw [assoc_eq_keys_map _ hnodup]
  rw [List.filterMap_map, filterMap_eq_map_of_forall_some hsome]
  rfl

/-- C5 (amended): permuting the Stage 2 raters permutes the output of
`calculate_aggregate_rankings`, preserving every entry (model,
average_rank, rankings_count); the output remains sorted ascending by
average rank, so only entries with tied average ranks can change relative
order (the sort is stable over defaultdict insertion order, which depends
on rater order). -/
theorem calculate_aggregate_rankings_perm_invariant
    (l1 l2 : List Stage2Result) (ltm : List (List Char × String)) (h : l1.Perm l2) :
    (calculate_aggregate_rankings l1 ltm).Perm (calculate_aggregate_rankings l2 ltm)
    ∧ List.Sorted (fun a b : AggregateEntry => a.average_rank ≤ b.average_rank)
        (calculate_aggregate_rankings l1 ltm) := by
  have hev : (aggEvents l1).Perm (aggEvents l2) := by
    unfold aggEvents
    exact (h.map _).flatten
  have hpos : ∀ k, (resolvedPositions ltm (aggEvents l1) k).Perm
      (resolvedPositions ltm (aggEvents l2) k) := fun k => hev.filterMap _
  have hgeq : (fun k => aggEntryOf k (resolvedPositions ltm (aggEvents l1) k))
      = fun k => aggEntryOf k (resolvedPositions ltm (aggEvents l2) k) := by
    funext k
    unfold aggEntryOf
    rw [(hpos k).sum_eq, (hpos k).length_eq]
  have hnd1 : (aggModelKeys ltm l1).Nodup :=
    foldl_aggStep_nodup ltm (aggEvents l1) [] (by simp)
  have hnd2 : (aggModelKeys ltm l2).Nodup :=
    foldl_aggStep_nodup ltm (aggEvents l2) [] (by simp)
  have hrm : (resolvedModels ltm (aggEvents l1)).Perm (resolvedModels ltm (aggEvents l2)) :=
    hev.filterMap _
  have hmem : ∀ k, k ∈ aggModelKeys ltm l1 ↔ k ∈ aggModelKeys ltm l2 := by
    intro k
    unfold aggModelKeys
    rw [foldl_aggStep_mem, foldl_aggStep_mem]
    simp only [List.map_nil, List.not_mem_nil, false_or]
    exact hrm.mem_iff
  have hkperm : (aggModelKeys ltm l1).Perm (aggModelKeys ltm l2) :=
    (List.perm_ext_iff_of_nodup hnd1 hnd2).mpr hmem
  constructor
  · rw [calculate_aggregate_rankings_eq, calculate_aggregate_rankings_eq]
    refine (List.perm_insertionSort _ _).trans
      (List.Perm.trans ?_ (List.perm_insertionSort _ _).symm)
    rw [hgeq]
    exact hkperm.map _
  · rw [calculate_aggregate_rankings_eq]
    haveI : IsTotal AggregateEntry (fun a b => a.average_rank ≤ b.average_rank) :=
      ⟨fun a b => le_total _ _⟩
    haveI : IsTrans AggregateEntry (fun a b => a.average_rank ≤ b.average_rank) :=
      ⟨fun _ _ _ hab hbc => le_trans hab hbc⟩
    exact List.sorted_insertionSort _ _

theorem calculate_aggregate_rankings_perm_invariant_witness :
    (calculate_aggregate_rankings [c5RaterAB, c5RaterBA] c5LabelMap).Perm
      (calculate_aggregate_rankings [c5RaterBA, c5RaterAB] c5LabelMap) :=
  (calculate_aggregate_rankings_perm_invariant [c5RaterAB, c5RaterBA]
    [c5RaterBA, c5RaterAB] c5LabelMap (List.Perm.swap c5RaterBA c5RaterAB [])).1

theorem aggEntryOf_c5_12 (k : String) : aggEntryOf k [1, 2] = ⟨k, 3 / 2, 2⟩ := by
  simp only [aggEntryOf, pyRound, roundHalfEven]
  norm_num

theorem aggEntryOf_c5_21 (k : String) : aggEntryOf k [2, 1] = ⟨k, 3 / 2, 2⟩ := by
  simp only [aggEntryOf, pyRound, roundHalfEven]
  norm_num

/-- Two raters whose rankings tie both models at average rank 1.5: swapping
the raters swaps the output order (the stable sort falls back to
defaultdict insertion order, which is determined by rater order), so the
aggregator's output is not invariant under permuting the raters. -/
theorem calculate_aggregate_rankings_order_counterexample :
    calculate_aggregate_rankings [c5RaterAB, c5RaterBA] c5LabelMap =
      [⟨"m1", 3 / 2, 2⟩, ⟨"m2", 3 / 2, 2⟩]
    ∧ calculate_aggregate_rankings [c5RaterBA, c5RaterAB] c5LabelMap =
      [⟨"m2", 3 / 2, 2⟩, ⟨"m1", 3 / 2, 2⟩]
    ∧ ([c5RaterAB, c5RaterBA] : List Stage2Result).Perm [c5RaterBA, c5RaterAB]
    ∧ ([⟨"m1", 3 / 2, 2⟩, ⟨"m2", 3 / 2, 2⟩] : List AggregateEntry) ≠
        [⟨"m2", 3 / 2, 2⟩, ⟨"m1", 3 / 2, 2⟩] := by
  refine ⟨?_, ?_, List.Perm.swap c5RaterBA c5RaterAB [], ?_⟩
  · rw [calculate_aggregate_rankings_eq]
    rw [show aggModelKeys c5LabelMap [c5RaterAB, c5RaterBA] = ["m1", "m2"] from by decide]
    rw [List.map_cons, List.map_cons, List.map_nil]
    rw [show resolvedPositions c5LabelMap (aggEvents [c5RaterAB, c5RaterBA]) "m1" = [1, 2]
          from by decide]
    rw [show resolvedPositions c5LabelMap (aggEvents [c5RaterAB, c5RaterBA]) "m2" = [2, 1]
          from by decide]
    rw [aggEntryOf_c5_12, aggEntryOf_c5_21]
    simp only [List.insertionSort, List.orderedInsert]
    norm_num
  · rw [calculate_aggregate_rankings_eq]
    rw [show aggModelKeys c5LabelMap [c5RaterBA, c5RaterAB] = ["m2", "m1"] from by decide]
    rw [List.map_cons, List.map_cons, List.map_nil]
    rw [show resolvedPositions c5LabelMap (aggEvents [c5RaterBA, c5RaterAB]) "m2" = [1, 2]
          from by decide]
    rw [show resolvedPositions c5LabelMap (aggEvents [c5RaterBA, c5RaterAB]) "m1" = [2, 1]
          from by decide]
    rw [aggEntryOf_c5_12, aggEntryOf_c5_21]
    simp only [List.insertionSort, List.orderedInsert]
    norm_num
  · intro hcontra
    simp only [List.cons.injEq, AggregateEntry.mk.injEq] at hcontra
    exact absurd hcontra.1.1 (by decide)

theorem scriptEmitTypes_append (s t : List GenStep) :
    scriptEmitTypes (s ++ t) = scriptEmitTypes s ++ scriptEmitTypes t := by
  induction s with
  | nil => rfl
  | cons st rest ih => cases st <;> simp [scriptEmitTypes, ih]

theorem errorTerminalB_cons (t : EvType) (ts : List EvType) :
    errorTerminalB (t :: ts) =
      match ts with
      | [] => true
      | _ :: _ => ((t ≠ EvType.error : Bool)) && errorTerminalB ts := by
  cases ts <;> rfl

theorem runGen_errorTerminal (errMsg : List Char) :
    ∀ (s : List GenStep) (f : Option Nat),
      EvType.error ∉ scriptEmitTypes s →
      errorTerminalB ((runGen errMsg s f).map etype) = true := by
  intro s
  induction s with
  | nil => intro f _; rfl
  | cons st rest ih =>
    intro f hne
    cases st with
    | emit e =>
      simp only [scriptEmitTypes, List.mem_cons] at hne
      push_neg at hne
      have h1 : etype e ≠ EvType.error := fun hc => hne.1 hc.symm
      simp only [runGen, List.map_cons]
      rw [errorTerminalB_cons]
      cases hmap : (runGen errMsg rest f).map etype with
      | nil => rfl
      | cons t ts =>
        have h2 := ih f hne.2
        rw [hmap] at h2
        show (decide (etype e ≠ EvType.error) && errorTerminalB (t :: ts)) = true
        rw [Bool.and_eq_true]
        exact ⟨decide_eq_true h1, h2⟩
    | op n =>
      simp only [scriptEmitTypes] at hne
      simp only [runGen]
      by_cases hf : f = some n
      · rw [if_pos hf]; rfl
      · rw [if_neg hf]; exact ih f hne

theorem runGen_mem_types (errMsg : List Char) :
    ∀ (s : List GenStep) (f : Option Nat) (t : EvType),
      t ∈ (runGen errMsg s f).map etype → t = EvType.error ∨ t ∈ scriptEmitTypes s := by
  intro s
  induction s with
  | nil => intro f t h; simp [runGen] at h
  | cons st rest ih =>
    intro f t h
    cases st with
    | emit e =>
      simp only [runGen, List.map_cons, List.mem_cons] at h
      rcases h with rfl | h
      · exact Or.inr (by simp [scriptEmitTypes])
      · rcases ih f t h with he | hm
        · exact Or.inl he
        · exact Or.inr (by simp [scriptEmitTypes, hm])
    | op n =>
      simp only [runGen] at h
      by_cases hf : f = some n
      · rw [if_pos hf] at h
        simp only [List.map_cons, List.map_nil, List.mem_singleton] at h
        exact Or.inl (by simp [h, etype])
      · rw [if_neg hf] at h
        rcases ih f t h with he | hm
        · exact Or.inl he
        · exact Or.inr (by simp [scriptEmitTypes, hm])

theorem titleGo_runGen (errMsg : List Char) :
    ∀ (s : List GenStep) (f : Option Nat) (seen : Bool),
      titleAfterStage4Go seen (scriptEmitTypes s) = true →
      titleAfterStage4Go seen ((runGen errMsg s f).map etype) = true := by
  intro s
  induction s with
  | nil => intro f seen _; rfl
  | cons st rest ih =>
    intro f seen h
    cases st with
    | emit e =>
      simp only [scriptEmitTypes] at h
      simp only [runGen, List.map_cons]
      by_cases ht : etype e = EvType.title_complete
      · simp only [titleAfterStage4Go, if_pos ht] at h ⊢
        rw [Bool.and_eq_true] at h ⊢
        exact ⟨h.1, ih f seen h.2⟩
      · simp only [titleAfterStage4Go, if_neg ht] at h ⊢
        exact ih f _ h
    | op n =>
      simp only [scriptEmitTypes] at h
      simp only [runGen]
      by_cases hf : f = some n
      · rw [if_pos hf]
        simp [titleAfterStage4B, titleAfterStage4Go, etype]
      · rw [if_neg hf]; exact ih f seen h

/-- C9: the streamed events follow the fixed order `stage1_start,
stage1_complete, stage2_start, stage2_complete (carrying label_to_model
and the aggregate rankings computed from its own stage-2 data),
stage3_start, stage3_complete, stage4_start, stage4_complete,
title_complete?, cost_summary, complete`; `title_complete` appears only on
the conversation's first turn and only after `stage4_complete`; and a
failing awaited operation yields a single terminal `error` event after
which no further events follow. -/
theorem event_generator_protocol (g : GenInputs) (errMsg : List Char)
    (failAt : Option Nat) :
    (failAt = none →
      (event_generator g errMsg failAt).map etype = fullOrderTypes g.is_first_message)
    ∧ errorTerminalB ((event_generator g errMsg failAt).map etype) = true
    ∧ (EvType.title_complete ∈ (event_generator g errMsg failAt).map etype →
        g.is_first_message = true)
    ∧ titleAfterStage4B ((event_generator g errMsg failAt).map etype) = true
    ∧ (failAt = none →
        (event_generator g errMsg failAt)[3]? =
          some (SSEvent.stage2_complete (egStage2 g).1.1 (egStage2 g).1.2
            (calculate_aggregate_rankings (egStage2 g).1.1 (egStage2 g).1.2))) := by
  have hst : scriptEmitTypes (event_generator_script g) =
      [EvType.stage1_start, EvType.stage1_complete, EvType.stage2_start,
       EvType.stage2_complete, EvType.stage3_start, EvType.stage3_complete,
       EvType.stage4_start, EvType.stage4_complete]
      ++ (if g.is_first_message then [EvType.title_complete] else [])
      ++ [EvType.cost_summary, EvType.complete] := by
    cases hb : g.is_first_message <;>
      simp [event_generator_script, scriptEmitTypes_append, scriptEmitTypes, etype, hb]
  refine ⟨fun h => ?_, ?_, fun hmem => ?_, ?_, fun h => ?_⟩
  · subst h
    cases hb : g.is_first_message <;>
      simp [event_generator, event_generator_script, runGen, etype, fullOrderTypes, hb]
  · refine runGen_errorTerminal errMsg _ failAt ?_
    rw [hst]
    cases hb : g.is_first_message <;> simp
  · rcases runGen_mem_types errMsg _ failAt _ hmem with he | hm
    · exact absurd he (by decide)
    · rw [hst] at hm
      cases hb : g.is_first_message
      · rw [hb] at hm
        simp at hm
      · rfl
  · refine titleGo_runGen errMsg _ failAt false ?_
    rw [hst]
    cases hb : g.is_first_message <;> simp [hb] <;> decide
  · subst h
    simp [event_generator, event_generator_script, runGen, egAggregate]

theorem event_generator_protocol_witness :
    (event_generator c9Inputs [] none).map etype = fullOrderTypes true :=
  (event_generator_protocol c9Inputs [] none).1 rfl

end Council
